import Mathlib

/-!
Verification of the CIL optimisation core: the index `Sampler`
(cil/framework/sampler.py) and the ISTA, FISTA and SPDHG algorithms
(cil/optimisation/algorithms/FISTA.py, SPDHG.py).

The Python code is shallowly embedded: stateful objects become explicit
state records with state-passing functions, Python exceptions become
`Except` values, floats become rationals, and the external collaborators
excluded from the core (numpy's random generator, DataContainer methods,
operator / function objects) are modelled by explicit parameters or by
small deterministic stand-ins satisfying their documented contracts.
-/

namespace CIL

/-! ## Deterministic model of numpy's RandomState

numpy is an external collaborator of this core.  Its seeded generator is
modelled by a linear congruential generator over `Nat`: what the proofs
use is only that the generator is deterministic in the seed and that
`permutation` returns a rearrangement of its input, which is the
documented contract of numpy's `RandomState.permutation`. -/

/-- One step of a linear congruential generator, the deterministic model
of advancing numpy's generator state. -/
def lcg (s : Nat) : Nat :=
  (1103515245 * s + 12345) % 4294967296

/-- Model of constructing a numpy RandomState from a seed. -/
def mkRandomState (seed : Nat) : Nat := seed

/-- Core of the permutation model: repeatedly extract the element at a
generator-chosen index.  The fuel argument equals the list length at the
top call; it makes the recursion structural. -/
def permAux : Nat → Nat → List Nat → List Nat × Nat
  | 0, s, _ => ([], s)
  | _ + 1, s, [] => ([], s)
  | fuel + 1, s, x :: xs =>
      let l := x :: xs
      let j := s % l.length
      let chosen := l.getD j 0
      let rest := l.eraseIdx j
      let p := permAux fuel (lcg s) rest
      (chosen :: p.1, p.2)

/-- Model of numpy's RandomState.permutation: returns a permuted copy of
the list together with the advanced generator state. -/
def permutation (s : Nat) (l : List Nat) : List Nat × Nat :=
  permAux l.length s l

/-- Model of numpy's RandomState.choice over num_subsets indices:
returns an index in [0, n) together with the advanced generator state.
The probability vector of the Python call only shapes the distribution,
which no claim depends on; determinism and range are what matter here. -/
def choice (s : Nat) (n : Nat) : Nat × Nat :=
  (s % n, lcg s)

/-! ## Sampler (cil/framework/sampler.py) -/

/-- State of a `Sampler` object: the fields set by `Sampler.__init__`.
`seed` is the already-resolved seed (Python resolves `seed=None` to the
wall-clock time before storing it; claims quantify over its value).
`generator` is the model RandomState state. -/
@[ext]
structure SamplerState where
  samplingType : String
  num_subsets : Nat
  seed : Nat
  generator : Nat
  order : Option (List Nat)
  initial_order : Option (List Nat)
  prob : Option (List ℚ)
  shuffle : Bool
  last_subset : Nat
  deriving DecidableEq, Repr

namespace Sampler

/-- `Sampler.__init__`: records the arguments, seeds the generator,
copies `order` into `initial_order` and starts the cursor at
`num_subsets - 1`. -/
def init (num_subsets : Nat) (samplingType : String) (shuffle : Bool)
    (order : Option (List Nat)) (prob : Option (List ℚ)) (seed : Nat) :
    SamplerState :=
  { samplingType := samplingType
    num_subsets := num_subsets
    seed := seed
    generator := mkRandomState seed
    order := order
    initial_order := order
    prob := prob
    shuffle := shuffle
    last_subset := num_subsets - 1 }

/-- `Sampler._next_order`: shuffle the working order when the cursor sits
at the last element (and shuffling is on), advance the cursor modulo
`num_subsets`, and return the order entry at the new cursor. -/
def next_order (s : SamplerState) : Nat × SamplerState :=
  let s1 :=
    if s.shuffle = true ∧ s.last_subset = s.num_subsets - 1 then
      let p := permutation s.generator (s.order.getD [])
      { s with order := some p.1, generator := p.2 }
    else s
  let ls := (s1.last_subset + 1) % s1.num_subsets
  ((s1.order.getD []).getD ls 0, { s1 with last_subset := ls })

/-- `Sampler._next_prob`: draw one index from the seeded generator. -/
def next_prob (s : SamplerState) : Nat × SamplerState :=
  let c := choice s.generator s.num_subsets
  (c.1, { s with generator := c.2 })

/-- `Sampler.next`: dispatch to the iterator chosen by `__init__`
(`_next_prob` when a probability vector was given, `_next_order`
otherwise). -/
def next (s : SamplerState) : Nat × SamplerState :=
  if s.prob.isSome then next_prob s else next_order s

/-- Repeated `next` calls: the list of draws and the final state. -/
def runNext : Nat → SamplerState → List Nat × SamplerState
  | 0, s => ([], s)
  | n + 1, s =>
      let p := next s
      let q := runNext n p.2
      (p.1 :: q.1, q.2)

/-- The replay state prepared inside `get_samples`: cursor to
`num_subsets - 1`, working order back to `initial_order`, generator
re-seeded from `seed` - i.e. the post-construction state. -/
def reset (s : SamplerState) : SamplerState :=
  { s with
    last_subset := s.num_subsets - 1
    order := s.initial_order
    generator := mkRandomState s.seed }

/-- `Sampler.get_samples`: save generator, cursor and working order,
replay `num_samples` draws from the post-construction state, then
restore the three saved fields. -/
def get_samples (num_samples : Nat) (s : SamplerState) :
    List Nat × SamplerState :=
  let r := runNext num_samples (reset s)
  (r.1, { r.2 with
          generator := s.generator
          order := s.order
          last_subset := s.last_subset })

/-- `Sampler.sequential`. -/
def sequential (num_subsets : Nat) : SamplerState :=
  init num_subsets ("sequential") false (some (List.range num_subsets)) none 0

/-- `Sampler.customOrder`. -/
def customOrder (customlist : List Nat) : SamplerState :=
  init customlist.length ("custom_order") false (some customlist) none 0

/-- `Sampler.randomWithoutReplacement`: order `0..n-1`, shuffling
re-permutes it each time the cursor wraps. -/
def randomWithoutReplacement (num_subsets : Nat) (seed : Nat)
    (shuffle : Bool := true) : SamplerState :=
  init num_subsets ("random_without_replacement") shuffle
    (some (List.range num_subsets)) none seed

/-- `Sampler.randomWithReplacement`: probability vector defaults to
uniform. -/
def randomWithReplacement (num_subsets : Nat) (prob : Option (List ℚ))
    (seed : Nat) : SamplerState :=
  let p := prob.getD (List.replicate num_subsets ((1 : ℚ) / num_subsets))
  init num_subsets ("random_with_replacement") false none (some p) seed

/-! ### Herman Meyer order -/

/-- The trial-division loop of `_herman_meyer_order`: starting from
`i = 2`, while `i * i <= n_variable` either divide out the factor `i` or
increment `i`.  Returns the collected factors and the final value of
`n_variable`.  The fuel argument makes the recursion structural; `n + 2`
steps are enough since every step either shrinks `n_variable` or grows
`i` towards its square-root bound. -/
def hmFactorLoop : Nat → Nat → Nat → List Nat × Nat
  | 0, _, nv => ([], nv)
  | fuel + 1, i, nv =>
      if i * i ≤ nv then
        if nv % i = 0 then
          let p := hmFactorLoop fuel i (nv / i)
          (i :: p.1, p.2)
        else hmFactorLoop fuel (i + 1) nv
      else ([], nv)

/-- The prime factor list computed by `_herman_meyer_order`. -/
def hmFactors (n : Nat) : List Nat :=
  let p := hmFactorLoop (n + 2) 2 n
  p.1 ++ (if p.2 > 1 then [p.2] else [])

/-- The inner `for element in range(n)` loop of `_herman_meyer_order`
for one factor index: walks the order list, adding
`prod(factors[factor_n+1:]) * mapping` to each entry while threading the
mutable counters `value` and `n_rep_value`.  Returns the updated order
and the final `value` (which persists across factor indices). -/
def hmElemLoop (fk pk ncv : Nat) : List Nat → Nat → Nat → List Nat × Nat
  | [], value, _ => ([], value)
  | o :: rest, value, nrv =>
      let mapping := value
      let nrv1 := nrv + 1
      let step : Nat × Nat :=
        if ncv ≤ nrv1 then (value + 1, 0) else (value, nrv1)
      let v2 := if step.1 = fk then 0 else step.1
      let q := hmElemLoop fk pk ncv rest v2 step.2
      ((o + pk * mapping) :: q.1, q.2)

/-- The outer `for factor_n in range(n_factors)` loop of
`_herman_meyer_order`. -/
def hmOuterLoop (factors : List Nat) (n : Nat) : List Nat :=
  (List.foldl
    (fun (acc : List Nat × Nat) factor_n =>
      let ncv := if factor_n = 0 then 1 else (factors.take factor_n).prod
      let fk := factors.getD factor_n 0
      let pk := (factors.drop (factor_n + 1)).prod
      hmElemLoop fk pk ncv acc.1 acc.2 0)
    (List.replicate n 0, 0)
    (List.range factors.length)).1

/-- The message of the ValueError raised by `_herman_meyer_order`. -/
def hermanMeyerErrMsg : String :=
  "Herman Meyer sampling defaults to sequential ordering if the number of subsets is prime. Please use an alternative sampling method or change the number of subsets. "

/-- `_herman_meyer_order n`: factorize `n`; raise when the factor list
is empty; otherwise build the mixed-radix digit-reversal order. -/
def hermanMeyerOrder (n : Nat) : Except String (List Nat) :=
  let factors := hmFactors n
  if factors.length = 0 then Except.error hermanMeyerErrMsg
  else Except.ok (hmOuterLoop factors n)

/-- `Sampler.hermanMeyer`: build the Herman Meyer order and wrap it in a
sampler (no shuffling, no probability vector). -/
def hermanMeyer (num_subsets : Nat) : Except String SamplerState :=
  (hermanMeyerOrder num_subsets).map fun order =>
    init num_subsets ("herman_meyer") false (some order) none 0

/-- Elements of `l` at positions `start, start+step, start+2*step, ...`,
the model of the Python slice `l[start::step]` (for `step ≥ 1`; a zero
step raises in Python and yields `[]` here, guarded by the caller).
The fuel makes the recursion structural. -/
def everyNthAux : Nat → List Nat → Nat → List Nat
  | 0, _, _ => []
  | _ + 1, [], _ => []
  | fuel + 1, x :: xs, step => x :: everyNthAux fuel (xs.drop (step - 1)) step

/-- The Python slice `l[start::step]`. -/
def pySlice (l : List Nat) (start step : Nat) : List Nat :=
  if step = 0 then [] else everyNthAux l.length (l.drop start) step

/-- `Sampler.staggered`: requires `offset < num_subsets`, then
concatenates the strided slices `indices[i::offset]`. -/
def staggered (num_subsets offset : Nat) : Except String SamplerState :=
  if offset ≥ num_subsets then
    Except.error ("The offset should be less than the number of subsets")
  else
    let indices := List.range num_subsets
    let order := (List.range offset).foldl
      (fun acc i => acc ++ pySlice indices i offset) []
    Except.ok (init num_subsets ("staggered") false (some order) none 0)

end Sampler

/-! ## Python exception values -/

/-- The Python exception kinds raised by this core. -/
inductive PyError where
  | valueError (msg : String)
  | typeError (msg : String)
  | indexError (msg : String)
  | notImplementedError (msg : String)
  deriving DecidableEq, Repr

/-! ## Heap model for DataContainer buffers

The algorithms mutate pre-allocated array containers in place and share
them by reference (ISTA swaps handles, SPDHG writes one dual block per
iteration).  Containers are modelled as references (`Nat`) into a store;
each container holds one rational, the scalar instance of the
DataContainer contract.  `sapyb` is the documented container contract
`out = a * self + b * other`. -/

/-- Store of container buffers: a value per reference and the next fresh
reference. -/
structure Store where
  data : Nat → ℚ
  fresh : Nat

/-- Read a container value. -/
def Store.read (st : Store) (r : Nat) : ℚ := st.data r

/-- In-place write to a container. -/
def Store.write (st : Store) (r : Nat) (v : ℚ) : Store :=
  ⟨fun i => if i = r then v else st.data i, st.fresh⟩

/-- Allocate a new container holding `v` (copy() and geometry.allocate). -/
def Store.alloc (st : Store) (v : ℚ) : Nat × Store :=
  (st.fresh, ⟨fun i => if i = st.fresh then v else st.data i, st.fresh + 1⟩)

/-- Allocate `n` containers all holding `v` (a block container). -/
def Store.allocN : Store → Nat → ℚ → List Nat × Store
  | st, 0, _ => ([], st)
  | st, n + 1, v =>
      let p := st.alloc v
      let q := p.2.allocN n v
      (p.1 :: q.1, q.2)

/-- The DataContainer contract `self.sapyb(a, other, b, out)`:
`out = a * self + b * other`. -/
def sapyb (a self b other : ℚ) : ℚ := a * self + b * other

/-! ## SPDHG (cil/optimisation/algorithms/SPDHG.py) -/

namespace SPDHG

/-- A Python value that is either a scalar number or a non-scalar
array, distinguishing the two branches of
`isinstance(-, Number)` in `check_convergence`. -/
inductive PyNum where
  | scalar (q : ℚ)
  | array (vals : List ℚ)
  deriving DecidableEq, Repr

/-- Python's `min` on a list: raises ValueError on the empty list. -/
def pyListMin : List ℚ → Except String ℚ
  | [] => Except.error ("min() arg is an empty sequence")
  | x :: xs => Except.ok (xs.foldl min x)

/-- `SPDHG.set_step_sizes`: resolves the four sigma/tau cases.  Inputs
are the per-block operator norms, the probability weights, and the
optionally supplied `sigma` list and `tau` scalar; `_ndual_subsets`
equals the length of the norms list supplied by the block operator.
Returns the resolved `(sigma, tau)` or the raised error message. -/
def set_step_sizes (norms prob_weights : List ℚ)
    (sigma : Option (List ℚ)) (tau : Option ℚ) :
    Except String (List ℚ × ℚ) := do
  let gamma : ℚ := 1
  let rho : ℚ := 99 / 100
  let ndual := norms.length
  let sigmaRes : List ℚ ←
    match sigma with
    | some sg =>
        if sg.length = ndual then
          if sg.all (fun x => 0 < x) then pure sg
          else Except.error ("Sigma expected to be a positive number.")
        else
          Except.error ("Please pass a list of floats to sigma with the same number of entries as number of operators")
    | none =>
        match tau with
        | none => pure (norms.map fun ni => gamma * rho / ni)
        | some t =>
            pure ((norms.zip prob_weights).map fun p =>
              gamma * rho * p.2 / (t * p.1 ^ 2))
  let tauRes : ℚ ←
    match tau with
    | none => do
        let values := (prob_weights.zip (norms.zip sigmaRes)).map fun p =>
          p.1 / (p.2.2 * p.2.1 ^ 2)
        let m ← pyListMin (values.filter fun v => v > 1 / 100000000)
        pure (m * (rho / gamma))
    | some t =>
        if 0 < t then pure t
        else Except.error ("The step-sizes of SPDHG must be positive")
  pure (sigmaRes, tauRes)

/-- `SPDHG.check_convergence`: the `for i in range(self._ndual_subsets)`
loop whose body returns in every branch, so it decides on `i = 0` alone;
an empty range falls through and Python returns `None`. -/
def ccLoop (tau : PyNum) (sigma : List PyNum) (norms prob_weights : List ℚ) :
    List Nat → Option Bool
  | [] => none
  | i :: _ =>
      match tau, sigma.getD i (PyNum.array []) with
      | PyNum.scalar t, PyNum.scalar si =>
          if si * t * (norms.getD i 0) ^ 2 > prob_weights.getD i 0 then
            some false
          else some true
      | _, _ => some false

/-- `SPDHG.check_convergence` with `_ndual_subsets = ndual`. -/
def check_convergence (ndual : Nat) (tau : PyNum) (sigma : List PyNum)
    (norms prob_weights : List ℚ) : Option Bool :=
  ccLoop tau sigma norms prob_weights (List.range ndual)

/-- The external collaborators consumed by the SPDHG iteration, on the
scalar container instance: the per-block linear operator and its
adjoint, each block's proximal-of-convex-conjugate, g's proximal, and
the objective-evaluation hooks. -/
structure Ops where
  direct : Nat → ℚ → ℚ
  adjoint : Nat → ℚ → ℚ
  proxConj : Nat → ℚ → ℚ → ℚ
  proxG : ℚ → ℚ → ℚ
  fEval : Nat → ℚ → ℚ
  gEval : ℚ → ℚ
  fConvexConj : List ℚ → ℚ
  gConvexConj : ℚ → ℚ
  blockAdjoint : List ℚ → ℚ

/-- The SPDHG algorithm state after `set_up`: container references for
the primal iterate and scratch buffers, one dual reference per block,
and the resolved scalars. -/
structure State where
  x : Nat
  x_tmp : Nat
  y_old : List Nat
  z : Nat
  zbar : Nat
  sigma : List ℚ
  tau : ℚ
  prob_weights : List ℚ
  norms : List ℚ
  theta : ℚ
  ndual : Nat
  loss : List (ℚ × ℚ × ℚ)

/-- Modelled from the spec: `BlockOperator` is code of this repository
that is not under the sources provided; per the spec it is "indexable
into per-block sub-operators", and `SPDHG.update` documents that
indexing it with a sampler draw outside the valid block range raises an
IndexError.  `blockDirect` applies block `i` when `i` is in range and
signals the IndexError otherwise. -/
def blockDirect (ndual : Nat) (direct : Nat → ℚ → ℚ) (i : Nat) (x : ℚ) :
    Except Unit ℚ :=
  if i < ndual then Except.ok (direct i x) else Except.error ()

/-- The message of the IndexError re-raised by `SPDHG.update`. -/
def samplerIndexMsg : String :=
  "The sampler has outputted an index larger than the number of operators to sample from. Please ensure your sampler samples from \x7b1,2,...,len(operator)\x7d only."

/-- The primal half of `SPDHG.update`:
`x_tmp = 1 * x + (-tau) * zbar` then `x = g.proximal(x_tmp, tau)`,
both in place.  In the source these writes happen before the sampler is
consulted, so they also precede any IndexError. -/
def primalStep (ops : Ops) (s : State) (st : Store) : Store :=
  let st1 := st.write s.x_tmp
    (sapyb 1 (st.read s.x) (-s.tau) (st.read s.zbar))
  st1.write s.x (ops.proxG (st1.read s.x_tmp) s.tau)

/-- `SPDHG.update` for the sampler draw `i`.  On an out-of-range draw
the IndexError carries the store as mutated so far (Python raises after
the in-place primal writes). -/
def update (ops : Ops) (s : State) (st : Store) (i : Nat) :
    Except (PyError × Store) (State × Store) :=
  let st1 := primalStep ops s st
  match blockDirect s.ndual ops.direct i (st1.read s.x) with
  | Except.error _ =>
      Except.error (PyError.indexError samplerIndexMsg, st1)
  | Except.ok v =>
      let yoi := s.y_old.getD i 0
      let sigi := s.sigma.getD i 0
      let a1 := st1.alloc v
      let y_k := a1.1
      let st2 := a1.2
      let st3 := st2.write y_k (sapyb sigi (st2.read y_k) 1 (st2.read yoi))
      let a2 := st3.alloc (ops.proxConj i (st3.read y_k) sigi)
      let y_k2 := a2.1
      let st4 := a2.2
      let st5 := st4.write yoi (st4.read y_k2 - st4.read yoi)
      let st6 := st5.write s.x_tmp (ops.adjoint i (st5.read yoi))
      let st7 := st6.write s.z (st6.read s.z + st6.read s.x_tmp)
      let st8 := st7.write s.zbar
        (sapyb 1 (st7.read s.z) (s.theta / s.prob_weights.getD i 0)
          (st7.read s.x_tmp))
      let st9 := st8.write yoi (st8.read y_k2)
      Except.ok (s, st9)

/-- `SPDHG.update_objective`: primal value, dual value and gap appended
to the loss history; `tmp = operator.adjoint(y_old)` allocates a fresh
container which is then negated in place. -/
def update_objective (ops : Ops) (s : State) (st : Store) : State × Store :=
  let xv := st.read s.x
  let p1 := ((List.range s.ndual).foldl
    (fun acc i => acc + ops.fEval i (ops.direct i xv)) 0) + ops.gEval xv
  let yvals := s.y_old.map st.read
  let a := st.alloc (ops.blockAdjoint yvals)
  let tmp := a.1
  let st1 := a.2
  let st2 := st1.write tmp (st1.read tmp * (-1))
  let d1 := -ops.fConvexConj yvals - ops.gConvexConj (st2.read tmp)
  ({ s with loss := s.loss ++ [(p1, d1, p1 - d1)] }, st2)

/-- The heap-relevant part of `SPDHG.set_up`: resolve the step sizes,
copy `initial` into a fresh primal buffer (or allocate zeros when it is
absent), and allocate the scratch, dual, `z` and `zbar` buffers. -/
def set_up (st : Store) (initial : Option Nat) (norms prob_weights : List ℚ)
    (sigma : Option (List ℚ)) (tau : Option ℚ) :
    Except String (State × Store) := do
  let p ← set_step_sizes norms prob_weights sigma tau
  let ax :=
    match initial with
    | none => st.alloc 0
    | some r => st.alloc (st.read r)
  let x := ax.1
  let st1 := ax.2
  let at' := st1.alloc 0
  let x_tmp := at'.1
  let st2 := at'.2
  let ay := st2.allocN norms.length 0
  let y_old := ay.1
  let st3 := ay.2
  let az := st3.alloc 0
  let z := az.1
  let st4 := az.2
  let ab := st4.alloc 0
  let zbar := ab.1
  let st5 := ab.2
  pure ({ x := x, x_tmp := x_tmp, y_old := y_old, z := z, zbar := zbar
          sigma := p.1, tau := p.2, prob_weights := prob_weights
          norms := norms, theta := 1, ndual := norms.length, loss := [] },
        st5)

/-- One external driver step: `update` with the sampler draw `i`, or
`update_objective`. -/
inductive DriverOp where
  | update (i : Nat)
  | updateObjective

/-- Run a sequence of driver steps; a raised IndexError stops the run
with the store as mutated at the raise. -/
def run (ops : Ops) : List DriverOp → State × Store → State × Store
  | [], p => p
  | DriverOp.updateObjective :: rest, (s, st) =>
      run ops rest (update_objective ops s st)
  | DriverOp.update i :: rest, (s, st) =>
      match update ops s st i with
      | Except.ok p => run ops rest p
      | Except.error (_, st') => (s, st')

end SPDHG

/-! ## ISTA and FISTA (cil/optimisation/algorithms/FISTA.py) -/

/-- A CIL Function collaborator: either the `ZeroFunction` placeholder
or a general function carrying its evaluation, gradient and proximal
maps and an optional scalar Lipschitz constant (the `f.L` attribute;
`none` models an `L` that is not a `Number`). -/
inductive FunctionObj where
  | zeroFunction
  | func (ev : ℚ → ℚ) (grad : ℚ → ℚ) (prox : ℚ → ℚ → ℚ) (L : Option ℚ)

/-- `isinstance(-, ZeroFunction)`. -/
def FunctionObj.isZero : FunctionObj → Bool
  | FunctionObj.zeroFunction => true
  | FunctionObj.func _ _ _ _ => false

/-- Function evaluation; the ZeroFunction evaluates to 0. -/
def FunctionObj.evalAt : FunctionObj → ℚ → ℚ
  | FunctionObj.zeroFunction, _ => 0
  | FunctionObj.func ev _ _ _, x => ev x

/-- Gradient; the ZeroFunction has zero gradient. -/
def FunctionObj.gradAt : FunctionObj → ℚ → ℚ
  | FunctionObj.zeroFunction, _ => 0
  | FunctionObj.func _ gr _ _, x => gr x

/-- Proximal map; the ZeroFunction's proximal is the identity. -/
def FunctionObj.proxAt : FunctionObj → ℚ → ℚ → ℚ
  | FunctionObj.zeroFunction, x, _ => x
  | FunctionObj.func _ _ pr _, x, step => pr x step

/-- A step-size rule collaborator: `ConstantStepSize` or a custom rule
queried each iteration (modelled as a function of the iteration
count). -/
inductive StepSizeRule where
  | constantStepSize (step_size : ℚ)
  | custom (get : Nat → ℚ)

/-- `step_size_rule.get_step_size(self)`. -/
def StepSizeRule.get_step_size : StepSizeRule → Nat → ℚ
  | StepSizeRule.constantStepSize c, _ => c
  | StepSizeRule.custom f, it => f it

namespace ISTA

/-- The message of the ValueError raised when both f and g are the
ZeroFunction. -/
def bothZeroMsg : String :=
  "You set both f and g to be the ZeroFunction and thus the iterative method will not update and will remain fixed at the initial value."

/-- The message of the TypeError raised when both a step_size and a
step_size_rule are passed. -/
def bothStepMsg : String :=
  "You have passed both a step_size and a step_size_rule, please pass one or the other"

/-- `ISTA._calculate_default_step_size`: 1 for the ZeroFunction,
`0.99 * 2 / L` when `f.L` is a number, otherwise a ValueError. -/
def default_step_size (f : FunctionObj) (step_size : Option ℚ) :
    Except PyError ℚ :=
  match step_size with
  | none =>
      match f with
      | FunctionObj.zeroFunction => Except.ok 1
      | FunctionObj.func _ _ _ (some l) => Except.ok (99 / 100 * 2 / l)
      | FunctionObj.func _ _ _ none =>
          Except.error (PyError.valueError ("Function f is not differentiable"))
  | some s => Except.ok s

/-- `FISTA._calculate_default_step_size`: `1 / L` instead of
`0.99 * 2 / L`. -/
def fista_default_step_size (f : FunctionObj) (step_size : Option ℚ) :
    Except PyError ℚ :=
  match step_size with
  | none =>
      match f with
      | FunctionObj.zeroFunction => Except.ok 1
      | FunctionObj.func _ _ _ (some l) => Except.ok (1 / l)
      | FunctionObj.func _ _ _ none =>
          Except.error (PyError.valueError ("Function f is not differentiable"))
  | some s => Except.ok s

/-- The ISTA algorithm state after `set_up`: the reference the caller
passed as `initial` (stored as `self.initial`), the three buffers
allocated as copies of it, the resolved functions, rule and
preconditioner, and the loss history.  The preconditioner collaborator
is modelled as a map on the gradient value. -/
structure State where
  initial : Nat
  x_old : Nat
  x : Nat
  gradient_update : Nat
  f : FunctionObj
  g : FunctionObj
  step_size_rule : StepSizeRule
  preconditioner : Option (ℚ → ℚ)
  loss : List ℚ
  iteration : Nat

/-- `ISTA.set_up`, parametric in `_calculate_default_step_size` (FISTA
overrides that method and inherits the rest of `set_up`): store
`initial`, allocate `x_old`, `x` and `gradient_update` as copies of it,
default absent f and g to the ZeroFunction, reject the both-zero
configuration, then resolve the step-size rule. -/
def set_up_core (defaultStep : FunctionObj → Option ℚ → Except PyError ℚ)
    (st : Store) (initial : Nat) (f g : Option FunctionObj)
    (step_size : Option ℚ) (rule : Option StepSizeRule)
    (preconditioner : Option (ℚ → ℚ)) : Except PyError (State × Store) := do
  let a1 := st.alloc (st.read initial)
  let x_old := a1.1
  let st1 := a1.2
  let a2 := st1.alloc (st1.read initial)
  let x := a2.1
  let st2 := a2.2
  let a3 := st2.alloc (st2.read initial)
  let gu := a3.1
  let st3 := a3.2
  let f1 := f.getD FunctionObj.zeroFunction
  let g1 := g.getD FunctionObj.zeroFunction
  if f1.isZero && g1.isZero then
    Except.error (PyError.valueError bothZeroMsg)
  else do
    let rule1 ←
      match rule with
      | none => do
          let d ← defaultStep f1 step_size
          pure (StepSizeRule.constantStepSize d)
      | some r =>
          if step_size.isSome then
            Except.error (PyError.typeError bothStepMsg)
          else pure r
    pure ({ initial := initial, x_old := x_old, x := x
            gradient_update := gu, f := f1, g := g1
            step_size_rule := rule1, preconditioner := preconditioner
            loss := [], iteration := 0 }, st3)

/-- `ISTA.set_up`. -/
def set_up (st : Store) (initial : Nat) (f g : Option FunctionObj)
    (step_size : Option ℚ) (rule : Option StepSizeRule)
    (preconditioner : Option (ℚ → ℚ)) : Except PyError (State × Store) :=
  set_up_core default_step_size st initial f g step_size rule preconditioner

/-- `ISTA.update`: gradient into the scratch buffer, optional
preconditioning in place, gradient step in place on `x_old`, proximal
step into `x`. -/
def update (s : State) (st : Store) : State × Store :=
  let st1 := st.write s.gradient_update (s.f.gradAt (st.read s.x_old))
  let st2 :=
    match s.preconditioner with
    | some p => st1.write s.gradient_update (p (st1.read s.gradient_update))
    | none => st1
  let step := s.step_size_rule.get_step_size s.iteration
  let st3 := st2.write s.x_old
    (sapyb 1 (st2.read s.x_old) (-step) (st2.read s.gradient_update))
  let st4 := st3.write s.x (s.g.proxAt (st3.read s.x_old) step)
  ({ s with iteration := s.iteration + 1 }, st4)

/-- `ISTA._update_previous_solution`: swap the x / x_old buffer
references without copying. -/
def update_previous_solution (s : State) : State :=
  { s with x_old := s.x, x := s.x_old }

/-- `ISTA.update_objective`: append `f(x_old) + g(x_old)` to the loss
history; the store is untouched. -/
def update_objective (s : State) (st : Store) : State :=
  { s with loss := s.loss ++ [s.f.evalAt (st.read s.x_old) +
                              s.g.evalAt (st.read s.x_old)] }

/-- One external driver step for ISTA. -/
inductive DriverOp where
  | update
  | updateObjective
  | updatePrevious

/-- Run a sequence of driver steps for ISTA. -/
def run : List DriverOp → State × Store → State × Store
  | [], p => p
  | DriverOp.update :: rest, (s, st) => run rest (update s st)
  | DriverOp.updateObjective :: rest, (s, st) =>
      run rest (update_objective s st, st)
  | DriverOp.updatePrevious :: rest, (s, st) =>
      run rest (update_previous_solution s, st)

end ISTA

namespace FISTA

/-- The FISTA algorithm state: the inherited ISTA state plus the
extrapolation buffer `y` and the momentum scalars `t`, `t_old`. -/
structure State where
  base : ISTA.State
  y : Nat
  t : ℚ
  t_old : ℚ

/-- `FISTA.__init__` followed by the inherited `ISTA.set_up` with
FISTA's overridden default step size: `y` is allocated as a copy of
`initial` before the base constructor runs, and `t` starts at 1. -/
def set_up (st : Store) (initial : Nat) (f g : Option FunctionObj)
    (step_size : Option ℚ) (rule : Option StepSizeRule)
    (preconditioner : Option (ℚ → ℚ)) : Except PyError (State × Store) := do
  let ay := st.alloc (st.read initial)
  let y := ay.1
  let st1 := ay.2
  let p ← ISTA.set_up_core ISTA.fista_default_step_size st1 initial f g
    step_size rule preconditioner
  pure ({ base := p.1, y := y, t := 1, t_old := 1 }, p.2)

/-- `FISTA.update`.  The momentum update
`t = 0.5 * (1 + sqrt(1 + 4 * t_old ^ 2))` calls numpy's square root, an
external collaborator modelled by the parameter `sqrtFn`. -/
def update (sqrtFn : ℚ → ℚ) (s : State) (st : Store) : State × Store :=
  let b := s.base
  let t_old := s.t
  let st1 := st.write b.gradient_update (b.f.gradAt (st.read s.y))
  let st2 :=
    match b.preconditioner with
    | some p => st1.write b.gradient_update (p (st1.read b.gradient_update))
    | none => st1
  let step := b.step_size_rule.get_step_size b.iteration
  let st3 := st2.write s.y
    (sapyb 1 (st2.read s.y) (-step) (st2.read b.gradient_update))
  let st4 := st3.write b.x (b.g.proxAt (st3.read s.y) step)
  let t := 1 / 2 * (1 + sqrtFn (1 + 4 * t_old ^ 2))
  let st5 := st4.write s.y (st4.read b.x - st4.read b.x_old)
  let st6 := st5.write s.y
    (sapyb ((t_old - 1) / t) (st5.read s.y) 1 (st5.read b.x))
  ({ s with base := { b with iteration := b.iteration + 1 }
            t := t, t_old := t_old }, st6)

/-- Run a sequence of driver steps for FISTA (update, objective logging,
and the inherited buffer swap). -/
def run (sqrtFn : ℚ → ℚ) : List ISTA.DriverOp → State × Store → State × Store
  | [], p => p
  | ISTA.DriverOp.update :: rest, (s, st) => run sqrtFn rest (update sqrtFn s st)
  | ISTA.DriverOp.updateObjective :: rest, (s, st) =>
      run sqrtFn rest ({ s with base := ISTA.update_objective s.base st }, st)
  | ISTA.DriverOp.updatePrevious :: rest, (s, st) =>
      run sqrtFn rest ({ s with base := ISTA.update_previous_solution s.base }, st)

end FISTA

/-! ## Concrete instances used by witnesses and counterexamples -/

/-- A concrete SPDHG collaborator bundle on scalar containers: identity
operator blocks, identity proximal maps. -/
def exOps : SPDHG.Ops :=
  { direct := fun _ x => x
    adjoint := fun _ x => x
    proxConj := fun _ y _ => y
    proxG := fun x _ => x
    fEval := fun _ x => x
    gEval := fun x => x
    fConvexConj := fun _ => 0
    gConvexConj := fun _ => 0
    blockAdjoint := fun l => l.foldl (fun a b => a + b) 0 }

/-- A concrete one-block SPDHG state: primal value at reference 0,
scratch 1, z 2, zbar 3, single dual block 4; sigma = [2], tau = 1. -/
def exSPDHGState : SPDHG.State :=
  { x := 0, x_tmp := 1, y_old := [4], z := 2, zbar := 3
    sigma := [2], tau := 1, prob_weights := [1], norms := [1]
    theta := 1, ndual := 1, loss := [] }

/-- A concrete store: the primal container holds 5, everything else 0. -/
def exStore : Store := ⟨fun r => if r = 0 then 5 else 0, 5⟩

/-- A concrete non-zero CIL function collaborator (no Lipschitz
constant). -/
def exG : FunctionObj :=
  FunctionObj.func (fun x => x) (fun _ => 0) (fun x _ => x) none

/-- A concrete caller-side store: the caller's initial container is
reference 0 holding 7. -/
def exStore2 : Store := ⟨fun r => if r = 0 then 7 else 0, 1⟩

/-- The result of a successful concrete `ISTA.set_up` call on
`exStore2` (the error branch is unreachable for these arguments). -/
def exIstaRes : ISTA.State × Store :=
  match ISTA.set_up exStore2 0 (some FunctionObj.zeroFunction) (some exG)
      none none none with
  | Except.ok p => p
  | Except.error _ =>
      (⟨0, 0, 0, 0, FunctionObj.zeroFunction, FunctionObj.zeroFunction,
        StepSizeRule.constantStepSize 0, none, [], 0⟩, ⟨fun _ => 0, 0⟩)

/-- The result of a successful concrete `FISTA.set_up` call on
`exStore2`. -/
def exFistaRes : FISTA.State × Store :=
  match FISTA.set_up exStore2 0 (some FunctionObj.zeroFunction) (some exG)
      none none none with
  | Except.ok p => p
  | Except.error _ =>
      (⟨⟨0, 0, 0, 0, FunctionObj.zeroFunction, FunctionObj.zeroFunction,
         StepSizeRule.constantStepSize 0, none, [], 0⟩, 0, 1, 1⟩,
       ⟨fun _ => 0, 0⟩)

/-- The result of a successful concrete `SPDHG.set_up` call on
`exStore2` with the caller's container as `initial`. -/
def exSpdhgRes : SPDHG.State × Store :=
  match SPDHG.set_up exStore2 (some 0) [1] [1] (some [1]) (some 1) with
  | Except.ok p => p
  | Except.error _ =>
      (⟨0, 0, [], 0, 0, [], 0, [], [], 0, 0, []⟩, ⟨fun _ => 0, 0⟩)

/-- The result of a concrete `SPDHG.set_up` call with `initial = None`. -/
def exSpdhgResNone : SPDHG.State × Store :=
  match SPDHG.set_up exStore2 none [1] [1] (some [1]) (some 1) with
  | Except.ok p => p
  | Except.error _ =>
      (⟨0, 0, [], 0, 0, [], 0, [], [], 0, 0, []⟩, ⟨fun _ => 0, 0⟩)

/-- A concrete driver schedule exercising update, objective logging and
the buffer swap. -/
def exIstaSchedule : List ISTA.DriverOp :=
  [ISTA.DriverOp.update, ISTA.DriverOp.updateObjective,
   ISTA.DriverOp.updatePrevious, ISTA.DriverOp.update]

/-- A concrete SPDHG driver schedule, ending in an out-of-range draw. -/
def exSpdhgSchedule : List SPDHG.DriverOp :=
  [SPDHG.DriverOp.update 0, SPDHG.DriverOp.updateObjective,
   SPDHG.DriverOp.update 0, SPDHG.DriverOp.update 7]

/-! ## Store lemmas -/

theorem store_read_write_eq (st : Store) (r : Nat) (v : ℚ) :
    (st.write r v).read r = v := by
  simp [Store.read, Store.write]

theorem store_read_write_ne (st : Store) (r r' : Nat) (v : ℚ)
    (h : r' ≠ r) : (st.write r v).read r' = st.read r' := by
  simp [Store.read, Store.write, h]

theorem store_read_alloc_fst (st : Store) (v : ℚ) :
    ((st.alloc v).2).read (st.alloc v).1 = v := by
  simp [Store.read, Store.alloc]

theorem store_read_alloc_of_lt (st : Store) (v : ℚ) (r : Nat)
    (h : r < st.fresh) : ((st.alloc v).2).read r = st.read r := by
  simp [Store.read, Store.alloc, Nat.ne_of_lt h]

theorem store_fresh_write (st : Store) (r : Nat) (v : ℚ) :
    (st.write r v).fresh = st.fresh := rfl

theorem store_fresh_alloc (st : Store) (v : ℚ) :
    ((st.alloc v).2).fresh = st.fresh + 1 := rfl

theorem store_alloc_fst_eq (st : Store) (v : ℚ) :
    (st.alloc v).1 = st.fresh := rfl

/-! ## C7: the Herman Meyer example -/

/-- C7: `Sampler.hermanMeyer(12).get_samples(16)` is exactly the
mixed-radix digit-reversal order of 12 cycled past one full period. -/
theorem hermanMeyer12_get_samples16 :
    (Sampler.hermanMeyer 12).map (fun s => (Sampler.get_samples 16 s).1) =
    Except.ok [0, 6, 3, 9, 1, 7, 4, 10, 2, 8, 5, 11, 0, 6, 3, 9] := by
  rfl

/-! ## C8: Herman Meyer on a prime number of subsets -/

/-- C8: contrary to the claim, the code does not raise for a prime
number of subsets: for the prime 7 the trial-division loop leaves
`n_variable = 7 > 1`, so the factor list is `[7]` (not empty), the
`n_factors == 0` guard does not fire, and `_herman_meyer_order` returns
the sequential order `[0, ..., 6]` instead of raising the ValueError. -/
theorem hermanMeyerOrder_prime7_no_raise :
    Nat.Prime 7 ∧
    Sampler.hmFactors 7 = [7] ∧
    Sampler.hermanMeyerOrder 7 = Except.ok [0, 1, 2, 3, 4, 5, 6] := by
  refine ⟨by norm_num, rfl, rfl⟩

/-! ## C3: check_convergence only examines block 0 -/

/-- C3: contrary to the claim, `check_convergence` returns inside the
first loop iteration, so it only examines block 0: with two blocks,
scalar `tau = 1`, `sigma = [1/10, 1]`, `norms = [1, 1]` and
`prob_weights = [1/2, 1/2]`, block 1 violates the criterion
(`1 * 1 * 1 ^ 2 > 1/2`) yet the call returns true because block 0
satisfies it. -/
theorem check_convergence_ignores_block1 :
    SPDHG.check_convergence 2 (SPDHG.PyNum.scalar 1)
      [SPDHG.PyNum.scalar (1 / 10), SPDHG.PyNum.scalar 1]
      [1, 1] [1 / 2, 1 / 2] = some true ∧
    ((1 : ℚ) * 1 * (1 : ℚ) ^ 2 > 1 / 2) := by
  constructor
  · norm_num [SPDHG.check_convergence, SPDHG.ccLoop, List.range_succ]
  · norm_num

/-! ## C5: out-of-range sampler draws raise inside SPDHG.update -/

/-- C5: whenever the sampler draw `i` lies outside
`[0, number_of_blocks)`, `SPDHG.update` raises the re-raised IndexError
with its descriptive message (after the in-place primal writes, which
never touch a dual block), and never returns a successful state. -/
theorem spdhg_update_out_of_range (ops : SPDHG.Ops) (s : SPDHG.State)
    (st : Store) (i : Nat) (h : s.ndual ≤ i) :
    SPDHG.update ops s st i =
      Except.error (PyError.indexError SPDHG.samplerIndexMsg,
        SPDHG.primalStep ops s st) := by
  simp [SPDHG.update, SPDHG.blockDirect, Nat.not_lt.2 h]

/-- Witness for C5 at a concrete out-of-range draw. -/
theorem spdhg_update_out_of_range_witness :
    exSPDHGState.ndual ≤ 7 ∧
    SPDHG.update exOps exSPDHGState exStore 7 =
      Except.error (PyError.indexError SPDHG.samplerIndexMsg,
        SPDHG.primalStep exOps exSPDHGState exStore) :=
  ⟨by decide, spdhg_update_out_of_range exOps exSPDHGState exStore 7 (by decide)⟩

/-! ## C2: the SPDHG step-size formulas -/

theorem foldl_min_facts (xs : List ℚ) : ∀ x : ℚ,
    xs.foldl min x ≤ x ∧ ∀ v ∈ xs, xs.foldl min x ≤ v := by
  induction xs with
  | nil => intro x; simp
  | cons y ys ih =>
      intro x
      refine ⟨(ih (min x y)).1.trans (min_le_left _ _), ?_⟩
      intro v hv
      rcases List.mem_cons.1 hv with rfl | hv1
      · exact (ih (min x v)).1.trans (min_le_right _ _)
      · exact (ih (min x y)).2 v hv1

theorem foldl_min_mem (xs : List ℚ) : ∀ x : ℚ, xs.foldl min x ∈ x :: xs := by
  induction xs with
  | nil => intro x; simp
  | cons y ys ih =>
      intro x
      have h := ih (min x y)
      rcases List.mem_cons.1 h with h1 | h1
      · rcases min_choice x y with hc | hc
        · rw [List.foldl_cons, h1, hc]; exact List.mem_cons_self _ _
        · rw [List.foldl_cons, h1, hc]
          exact List.mem_cons_of_mem _ (List.mem_cons_self _ _)
      · exact List.mem_cons_of_mem _ (List.mem_cons_of_mem _ h1)

theorem pyListMin_spec (l : List ℚ) (hl : l ≠ []) :
    ∃ m, SPDHG.pyListMin l = Except.ok m ∧ m ∈ l ∧ ∀ v ∈ l, m ≤ v := by
  cases l with
  | nil => exact absurd rfl hl
  | cons x xs =>
      refine ⟨xs.foldl min x, rfl, foldl_min_mem xs x, ?_⟩
      intro v hv
      rcases List.mem_cons.1 hv with rfl | hv1
      · exact (foldl_min_facts xs v).1
      · exact (foldl_min_facts xs x).2 v hv1

/-- C2: with neither sigma nor tau given, `set_step_sizes` produces
`sigma[i] = gamma * rho / norms[i]` with `gamma = 1`, `rho = 0.99`, and
`tau = (rho / gamma) * m` where `m` is the least element of the
candidate list `prob_weights[i] / (sigma[i] * norms[i] ^ 2)` restricted
to values exceeding `1e-8`; with tau given but not sigma, it produces
`sigma[i] = gamma * rho * prob_weights[i] / (tau * norms[i] ^ 2)` for
every block `i`. -/
theorem set_step_sizes_default_formulas (norms pw : List ℚ) (t : ℚ)
    (hlen : pw.length = norms.length) (ht : 0 < t)
    (hne : (((pw.zip (norms.zip (norms.map fun ni => (1 : ℚ) * (99 / 100) / ni))).map
        (fun p => p.1 / (p.2.2 * p.2.1 ^ 2))).filter
        (fun v => v > 1 / 100000000)) ≠ []) :
    (∃ σ τ, SPDHG.set_step_sizes norms pw none none = Except.ok (σ, τ) ∧
      σ.length = norms.length ∧
      (∀ i, i < norms.length → σ.getD i 0 = 1 * (99 / 100) / norms.getD i 0) ∧
      ∃ m, m ∈ (((pw.zip (norms.zip σ)).map
            (fun p => p.1 / (p.2.2 * p.2.1 ^ 2))).filter (fun v => v > 1 / 100000000)) ∧
        (∀ v ∈ (((pw.zip (norms.zip σ)).map
            (fun p => p.1 / (p.2.2 * p.2.1 ^ 2))).filter (fun v => v > 1 / 100000000)),
          m ≤ v) ∧
        τ = m * ((99 / 100) / 1)) ∧
    (∃ σ, SPDHG.set_step_sizes norms pw none (some t) = Except.ok (σ, t) ∧
      σ.length = norms.length ∧
      ∀ i, i < norms.length →
        σ.getD i 0 = 1 * (99 / 100) * pw.getD i 0 / (t * (norms.getD i 0) ^ 2)) := by
  constructor
  · obtain ⟨m, hm, hmem, hle⟩ := pyListMin_spec _ hne
    refine ⟨norms.map fun ni => (1 : ℚ) * (99 / 100) / ni, m * ((99 / 100) / 1),
      ?_, by simp, ?_, m, hmem, hle, rfl⟩
    · simp only [SPDHG.set_step_sizes, bind, Except.bind, pure, Except.pure]
      rw [hm]
    · intro i hi
      rw [List.getD_eq_getElem _ _ (by simpa using hi), List.getD_eq_getElem _ _ hi]
      simp
  · refine ⟨(norms.zip pw).map fun p => (1 : ℚ) * (99 / 100) * p.2 / (t * p.1 ^ 2),
      ?_, ?_, ?_⟩
    · simp only [SPDHG.set_step_sizes, bind, Except.bind, pure, Except.pure]
      rw [if_pos ht]
    · simp [hlen]
    · intro i hi
      have hiz : i < (norms.zip pw).length := by simp [hlen, hi]
      rw [List.getD_eq_getElem _ _ (by simpa using hiz),
        List.getD_eq_getElem _ _ hi, List.getD_eq_getElem _ _ (by omega)]
      simp

/-- Witness for C2 at norms = [1], prob_weights = [1], tau = 1. -/
theorem set_step_sizes_default_formulas_witness :
    ([(1 : ℚ)].length = [(1 : ℚ)].length) ∧ ((0 : ℚ) < 1) ∧
    ((([(1 : ℚ)].zip ([(1 : ℚ)].zip ([(1 : ℚ)].map fun ni => (1 : ℚ) * (99 / 100) / ni))).map
        (fun p => p.1 / (p.2.2 * p.2.1 ^ 2))).filter
        (fun v => v > 1 / 100000000)) ≠ [] ∧
    ((∃ σ τ, SPDHG.set_step_sizes [1] [1] none none = Except.ok (σ, τ) ∧
      σ.length = [(1 : ℚ)].length ∧
      (∀ i, i < [(1 : ℚ)].length → σ.getD i 0 = 1 * (99 / 100) / [(1 : ℚ)].getD i 0) ∧
      ∃ m, m ∈ ((([(1 : ℚ)].zip ([(1 : ℚ)].zip σ)).map
            (fun p => p.1 / (p.2.2 * p.2.1 ^ 2))).filter (fun v => v > 1 / 100000000)) ∧
        (∀ v ∈ ((([(1 : ℚ)].zip ([(1 : ℚ)].zip σ)).map
            (fun p => p.1 / (p.2.2 * p.2.1 ^ 2))).filter (fun v => v > 1 / 100000000)),
          m ≤ v) ∧
        τ = m * ((99 / 100) / 1)) ∧
    (∃ σ, SPDHG.set_step_sizes [1] [1] none (some 1) = Except.ok (σ, 1) ∧
      σ.length = [(1 : ℚ)].length ∧
      ∀ i, i < [(1 : ℚ)].length →
        σ.getD i 0 = 1 * (99 / 100) * [(1 : ℚ)].getD i 0 / ((1 : ℚ) * ([(1 : ℚ)].getD i 0) ^ 2))) := by
  have hne : ((([(1 : ℚ)].zip ([(1 : ℚ)].zip ([(1 : ℚ)].map fun ni => (1 : ℚ) * (99 / 100) / ni))).map
      (fun p => p.1 / (p.2.2 * p.2.1 ^ 2))).filter
      (fun v => v > 1 / 100000000)) ≠ [] := by
    rw [Ne, List.filter_eq_nil_iff]
    push_neg
    refine ⟨(1 : ℚ) / ((1 * (99 / 100) / 1) * 1 ^ 2), by simp, by norm_num⟩
  exact ⟨rfl, by norm_num, hne,
    set_step_sizes_default_formulas [1] [1] 1 rfl (by norm_num) hne⟩

/-! ## C9: ISTA / FISTA reject the all-zero objective at setup -/

/-- C9: whenever both f and g are absent or are the ZeroFunction
placeholder, `ISTA.set_up` and the inherited `FISTA.set_up` raise the
ValueError before the algorithm is configured (the error is produced by
set_up itself, hence before any iteration can run). -/
theorem ista_fista_both_zero_raises (st : Store) (r : Nat)
    (f g : Option FunctionObj) (ss : Option ℚ) (rule : Option StepSizeRule)
    (pc : Option (ℚ → ℚ))
    (hf : f = none ∨ f = some FunctionObj.zeroFunction)
    (hg : g = none ∨ g = some FunctionObj.zeroFunction) :
    ISTA.set_up st r f g ss rule pc =
      Except.error (PyError.valueError ISTA.bothZeroMsg) ∧
    FISTA.set_up st r f g ss rule pc =
      Except.error (PyError.valueError ISTA.bothZeroMsg) := by
  have hf' : (f.getD FunctionObj.zeroFunction).isZero = true := by
    rcases hf with rfl | rfl <;> rfl
  have hg' : (g.getD FunctionObj.zeroFunction).isZero = true := by
    rcases hg with rfl | rfl <;> rfl
  constructor
  · simp [ISTA.set_up, ISTA.set_up_core, hf', hg']
  · simp [FISTA.set_up, ISTA.set_up_core, hf', hg', bind, Except.bind]

/-- Witness for C9: f absent, g the ZeroFunction. -/
theorem ista_fista_both_zero_raises_witness :
    ((none : Option FunctionObj) = none ∨
      (none : Option FunctionObj) = some FunctionObj.zeroFunction) ∧
    (some FunctionObj.zeroFunction = none ∨
      some FunctionObj.zeroFunction = some FunctionObj.zeroFunction) ∧
    ISTA.set_up exStore2 0 none (some FunctionObj.zeroFunction) none none none =
      Except.error (PyError.valueError ISTA.bothZeroMsg) ∧
    FISTA.set_up exStore2 0 none (some FunctionObj.zeroFunction) none none none =
      Except.error (PyError.valueError ISTA.bothZeroMsg) :=
  ⟨Or.inl rfl, Or.inr rfl,
    ista_fista_both_zero_raises exStore2 0 none (some FunctionObj.zeroFunction)
      none none none (Or.inl rfl) (Or.inr rfl)⟩


/-! ## C1: the SPDHG dual ascent step -/

/-- C1 (amended): in every successful `SPDHG.update` with block draw
`i`, the value committed to `y_old[i]` is
`proxConj_i(sigma[i] * K_i(x) + y_old[i], sigma[i])` where `x` is the
freshly computed primal iterate: `sigma[i]` multiplies the operator
image `K_i(x)`, the stored dual is added unscaled, and block i's
proximal-of-convex-conjugate is applied with parameter `sigma[i]`. -/
theorem spdhg_dual_ascent (ops : SPDHG.Ops) (s : SPDHG.State) (st : Store)
    (i : Nat) (hi : i < s.ndual)
    (hyx : s.y_old.getD i 0 ≠ s.x)
    (hyt : s.y_old.getD i 0 ≠ s.x_tmp)
    (hft : s.x_tmp < st.fresh)
    (hfz : s.z < st.fresh) (hfzb : s.zbar < st.fresh)
    (hfy : s.y_old.getD i 0 < st.fresh) :
    (∃ p, SPDHG.update ops s st i = Except.ok p) ∧
    ∀ s' st', SPDHG.update ops s st i = Except.ok (s', st') →
      s' = s ∧
      st'.read (s.y_old.getD i 0) =
        ops.proxConj i
          (s.sigma.getD i 0 *
            ops.direct i (ops.proxG (st.read s.x - s.tau * st.read s.zbar) s.tau) +
           st.read (s.y_old.getD i 0))
          (s.sigma.getD i 0) := by
  have h1 : s.y_old.getD i 0 ≠ st.fresh := by omega
  have h2 : st.fresh + 1 ≠ s.zbar := by omega
  have h3 : st.fresh + 1 ≠ s.z := by omega
  have h4 : st.fresh + 1 ≠ s.x_tmp := by omega
  have h5 : st.fresh + 1 ≠ s.y_old.getD i 0 := by omega
  constructor
  · simp only [SPDHG.update, SPDHG.blockDirect, if_pos hi]
    exact ⟨_, rfl⟩
  · intro s' st' h
    simp only [SPDHG.update, SPDHG.blockDirect, if_pos hi] at h
    injection h with h
    have hs : s' = s := (congrArg Prod.fst h).symm
    have hst : st' = _ := (congrArg Prod.snd h).symm
    subst hst
    refine ⟨hs, ?_⟩
    set yoi := s.y_old.getD i 0 with hyoi
    set sigi := s.sigma.getD i 0 with hsigi
    simp only [SPDHG.primalStep, Store.read, Store.write, Store.alloc, sapyb]
    simp [hyx, hyt, h1, h2, h3, h4, h5]
    ring_nf


/-- C1 counterexample to the claim as stated: with identity operator
and proximal collaborators, one block, `sigma = [2]`, `tau = 1`,
initial primal value 5 and dual value 0, the update commits
`y_old[0] = 10 = sigma[0] * K_0(x) + y_old[0]`, while the claimed
`sigma[0] * y_old[0] + K_0(x)` evaluates to `5 ≠ 10`. -/
theorem spdhg_dual_ascent_claim_counterexample :
    (SPDHG.update exOps exSPDHGState exStore 0).toOption.map
        (fun p => p.2.read 4) = some 10 ∧
    exSPDHGState.sigma.getD 0 0 * exStore.read 4 +
      exOps.direct 0 (exOps.proxG
        (exStore.read 0 - exSPDHGState.tau * exStore.read 3)
        exSPDHGState.tau) = 5 ∧
    (10 : ℚ) ≠ 5 := by
  refine ⟨?_, ?_, by norm_num⟩
  · norm_num [SPDHG.update, SPDHG.blockDirect, SPDHG.primalStep, Store.read,
      Store.write, Store.alloc, sapyb, exOps, exSPDHGState, exStore,
      Except.toOption, Option.map]
  · norm_num [exOps, exSPDHGState, exStore, Store.read]

/-- Witness for C1 (amended) at the concrete one-block instance. -/
theorem spdhg_dual_ascent_witness :
    (0 < exSPDHGState.ndual ∧
      exSPDHGState.y_old.getD 0 0 ≠ exSPDHGState.x ∧
      exSPDHGState.y_old.getD 0 0 ≠ exSPDHGState.x_tmp ∧
      exSPDHGState.x_tmp < exStore.fresh ∧
      exSPDHGState.z < exStore.fresh ∧
      exSPDHGState.zbar < exStore.fresh ∧
      exSPDHGState.y_old.getD 0 0 < exStore.fresh) ∧
    ((∃ p, SPDHG.update exOps exSPDHGState exStore 0 = Except.ok p) ∧
      ∀ s' st', SPDHG.update exOps exSPDHGState exStore 0 = Except.ok (s', st') →
        s' = exSPDHGState ∧
        st'.read (exSPDHGState.y_old.getD 0 0) =
          exOps.proxConj 0
            (exSPDHGState.sigma.getD 0 0 *
              exOps.direct 0 (exOps.proxG
                (exStore.read exSPDHGState.x -
                  exSPDHGState.tau * exStore.read exSPDHGState.zbar)
                exSPDHGState.tau) +
             exStore.read (exSPDHGState.y_old.getD 0 0))
            (exSPDHGState.sigma.getD 0 0)) :=
  ⟨⟨by decide, by decide, by decide, by decide, by decide, by decide, by decide⟩,
    spdhg_dual_ascent exOps exSPDHGState exStore 0 (by decide) (by decide)
      (by decide) (by decide) (by decide) (by decide) (by decide)⟩


/-! ## C4: get_samples is a pure preview -/


theorem sampler_next_preserves (s : SamplerState) :
    ((Sampler.next s).2).num_subsets = s.num_subsets ∧
    ((Sampler.next s).2).seed = s.seed ∧
    ((Sampler.next s).2).prob = s.prob ∧
    ((Sampler.next s).2).shuffle = s.shuffle ∧
    ((Sampler.next s).2).initial_order = s.initial_order ∧
    ((Sampler.next s).2).samplingType = s.samplingType := by
  unfold Sampler.next Sampler.next_prob Sampler.next_order
  split_ifs <;> simp

theorem sampler_runNext_preserves (n : Nat) (s : SamplerState) :
    ((Sampler.runNext n s).2).num_subsets = s.num_subsets ∧
    ((Sampler.runNext n s).2).seed = s.seed ∧
    ((Sampler.runNext n s).2).prob = s.prob ∧
    ((Sampler.runNext n s).2).shuffle = s.shuffle ∧
    ((Sampler.runNext n s).2).initial_order = s.initial_order ∧
    ((Sampler.runNext n s).2).samplingType = s.samplingType := by
  induction n generalizing s with
  | zero => simp [Sampler.runNext]
  | succ n ih =>
      have hn := sampler_next_preserves s
      have hr := ih (Sampler.next s).2
      exact ⟨hr.1.trans hn.1, hr.2.1.trans hn.2.1, hr.2.2.1.trans hn.2.2.1,
        hr.2.2.2.1.trans hn.2.2.2.1, hr.2.2.2.2.1.trans hn.2.2.2.2.1,
        hr.2.2.2.2.2.trans hn.2.2.2.2.2⟩

theorem sampler_reset_runNext (n : Nat) (s : SamplerState) :
    Sampler.reset ((Sampler.runNext n s).2) = Sampler.reset s := by
  have h := sampler_runNext_preserves n s
  ext : 1 <;> simp [Sampler.reset, h.1, h.2.1, h.2.2.1, h.2.2.2.1,
    h.2.2.2.2.1, h.2.2.2.2.2]

theorem sampler_reset_init (S : Nat) (ty : String) (sh : Bool)
    (ord : Option (List Nat)) (pr : Option (List ℚ)) (seed : Nat) :
    Sampler.reset (Sampler.init S ty sh ord pr seed) =
      Sampler.init S ty sh ord pr seed := rfl

theorem sampler_get_samples_snd (n : Nat) (s : SamplerState) :
    (Sampler.get_samples n s).2 = s := by
  have h := sampler_runNext_preserves n (Sampler.reset s)
  simp only [Sampler.reset] at h
  ext : 1 <;>
    simp [Sampler.get_samples, Sampler.reset, h.1, h.2.1, h.2.2.1,
      h.2.2.2.1, h.2.2.2.2.1, h.2.2.2.2.2]



/-- C4: for every sampler built through `Sampler.__init__` (every
factory goes through it; `0 < S` marks the domain on which the Python
code is defined) and any number `k` of `next()` calls already made,
`get_samples(n)` (a) leaves the live sampler state exactly as it was,
(b) returns the first n draws as if replaying from the
post-construction state, (c) returns identical output when called twice
with the same n, and (d) does not perturb the sequence that subsequent
`next()` calls produce. -/
theorem sampler_get_samples_frame (S : Nat) (ty : String) (sh : Bool)
    (ord : Option (List Nat)) (pr : Option (List ℚ)) (seed k n m : Nat)
    (hS : 0 < S) :
    (Sampler.get_samples n
        ((Sampler.runNext k (Sampler.init S ty sh ord pr seed)).2)).2 =
      (Sampler.runNext k (Sampler.init S ty sh ord pr seed)).2 ∧
    (Sampler.get_samples n
        ((Sampler.runNext k (Sampler.init S ty sh ord pr seed)).2)).1 =
      (Sampler.runNext n (Sampler.init S ty sh ord pr seed)).1 ∧
    (Sampler.get_samples n ((Sampler.get_samples n
        ((Sampler.runNext k (Sampler.init S ty sh ord pr seed)).2)).2)).1 =
      (Sampler.get_samples n
        ((Sampler.runNext k (Sampler.init S ty sh ord pr seed)).2)).1 ∧
    (Sampler.runNext m ((Sampler.get_samples n
        ((Sampler.runNext k (Sampler.init S ty sh ord pr seed)).2)).2)).1 =
      (Sampler.runNext m
        ((Sampler.runNext k (Sampler.init S ty sh ord pr seed)).2)).1 := by
  have ha := sampler_get_samples_snd n
    ((Sampler.runNext k (Sampler.init S ty sh ord pr seed)).2)
  refine ⟨ha, ?_, by rw [ha], by rw [ha]⟩
  show (Sampler.runNext n (Sampler.reset
    ((Sampler.runNext k (Sampler.init S ty sh ord pr seed)).2))).1 = _
  rw [sampler_reset_runNext, sampler_reset_init]

/-- Witness for C4 on a concrete sequential sampler. -/
theorem sampler_get_samples_frame_witness :
    0 < 3 ∧
    (Sampler.get_samples 4
        ((Sampler.runNext 2 (Sampler.init 3 ("sequential") false
          (some [0, 1, 2]) none 0)).2)).2 =
      (Sampler.runNext 2 (Sampler.init 3 ("sequential") false
        (some [0, 1, 2]) none 0)).2 ∧
    (Sampler.get_samples 4
        ((Sampler.runNext 2 (Sampler.init 3 ("sequential") false
          (some [0, 1, 2]) none 0)).2)).1 =
      (Sampler.runNext 4 (Sampler.init 3 ("sequential") false
        (some [0, 1, 2]) none 0)).1 :=
  ⟨by decide,
    (sampler_get_samples_frame 3 ("sequential") false (some [0, 1, 2]) none
      0 2 4 5 (by decide)).1,
    (sampler_get_samples_frame 3 ("sequential") false (some [0, 1, 2]) none
      0 2 4 5 (by decide)).2.1⟩


/-! ## C6: randomWithoutReplacement draws whole permutations per cycle -/

theorem permAux_perm : ∀ (fuel g : Nat) (l : List Nat),
    l.length ≤ fuel → (permAux fuel g l).1.Perm l := by
  intro fuel
  induction fuel with
  | zero =>
      intro g l h
      have : l = [] := List.length_eq_zero.1 (Nat.le_zero.1 h)
      subst this
      simp [permAux]
  | succ fuel ih =>
      intro g l h
      cases l with
      | nil => simp [permAux]
      | cons x xs =>
          have hj : g % (x :: xs).length < (x :: xs).length :=
            Nat.mod_lt _ (by simp)
          have hch : (x :: xs).getD (g % (x :: xs).length) 0 =
              (x :: xs)[g % (x :: xs).length] := List.getD_eq_getElem _ _ hj
          have hlrest : ((x :: xs).eraseIdx (g % (x :: xs).length)).length ≤ fuel := by
            have := List.length_eraseIdx_add_one hj
            have hx : (x :: xs).length ≤ fuel + 1 := h
            omega
          have hperm1 : (x :: xs).Perm
              ((x :: xs)[g % (x :: xs).length] ::
                (x :: xs).eraseIdx (g % (x :: xs).length)) := by
            refine (List.perm_cons_erase (List.getElem_mem hj)).trans ?_
            exact List.Perm.cons _ (List.erase_getElem hj)
          have hrest := ih (lcg g) ((x :: xs).eraseIdx (g % (x :: xs).length)) hlrest
          show ((x :: xs).getD (g % (x :: xs).length) 0 ::
            (permAux fuel (lcg g) ((x :: xs).eraseIdx (g % (x :: xs).length))).1).Perm _
          rw [hch]
          exact (List.Perm.cons _ hrest).trans hperm1.symm

theorem permutation_fst_perm (g : Nat) (l : List Nat) :
    (permutation g l).1.Perm l :=
  permAux_perm l.length g l le_rfl

theorem permutation_fst_length (g : Nat) (l : List Nat) :
    (permutation g l).1.length = l.length :=
  (permutation_fst_perm g l).length_eq


theorem sampler_runNext_length (n : Nat) (s : SamplerState) :
    (Sampler.runNext n s).1.length = n := by
  induction n generalizing s with
  | zero => simp [Sampler.runNext]
  | succ n ih => simp [Sampler.runNext, ih]

theorem sampler_runNext_add (a b : Nat) (s : SamplerState) :
    Sampler.runNext (a + b) s =
      ((Sampler.runNext a s).1 ++ (Sampler.runNext b (Sampler.runNext a s).2).1,
       (Sampler.runNext b (Sampler.runNext a s).2).2) := by
  induction a generalizing s with
  | zero => simp [Sampler.runNext]
  | succ a ih =>
      have hsa : a + 1 + b = (a + b) + 1 := by omega
      rw [hsa]
      show (let p := Sampler.next s
            let q := Sampler.runNext (a + b) p.2
            (p.1 :: q.1, q.2)) = _
      simp only []
      rw [ih (Sampler.next s).2]
      simp [Sampler.runNext]

theorem sampler_runNext_no_wrap (n : Nat) :
    ∀ (m : Nat) (u : SamplerState) (ou : List Nat),
    u.num_subsets = n → u.prob = none → u.order = some ou → ou.length = n →
    u.last_subset + m + 1 = n →
    Sampler.runNext m u =
      (ou.drop (u.last_subset + 1),
       { u with last_subset := u.last_subset + m }) := by
  intro m
  induction m with
  | zero =>
      intro u ou hnum hprob ho hlen hls
      have hdrop : ou.drop (u.last_subset + 1) = [] := by
        have : ou.length ≤ u.last_subset + 1 := by omega
        exact List.drop_eq_nil_of_le this
      simp [Sampler.runNext, hdrop]
  | succ m ih =>
      intro u ou hnum hprob ho hlen hls
      have hlt : u.last_subset + 1 < n := by omega
      have hshuf : ¬(u.shuffle = true ∧ u.last_subset = u.num_subsets - 1) := by
        rintro ⟨-, h2⟩
        omega
      have hmod : (u.last_subset + 1) % u.num_subsets = u.last_subset + 1 := by
        rw [hnum]
        exact Nat.mod_eq_of_lt hlt
      have hnext : Sampler.next u =
          (ou.getD (u.last_subset + 1) 0,
           { u with last_subset := u.last_subset + 1 }) := by
        rw [Sampler.next, if_neg (by simp [hprob])]
        rw [Sampler.next_order, if_neg hshuf]
        simp [hmod, ho]
      have hrec := ih { u with last_subset := u.last_subset + 1 } ou
        (by simpa using hnum) (by simpa using hprob) (by simpa using ho)
        hlen (by simp; omega)
      show (let p := Sampler.next u
            let q := Sampler.runNext m p.2
            (p.1 :: q.1, q.2)) = _
      rw [hnext]
      simp only []
      rw [hrec]
      have hidx : u.last_subset + 1 < ou.length := by omega
      rw [List.drop_eq_getElem_cons hidx]
      rw [List.getD_eq_getElem _ _ hidx]
      refine Prod.ext ?_ ?_
      · simp
      · simp
        omega


theorem sampler_shuffle_block (n : Nat) (hn : 0 < n) (u : SamplerState)
    (ou : List Nat) (hnum : u.num_subsets = n) (hprob : u.prob = none)
    (hsh : u.shuffle = true) (ho : u.order = some ou) (hlen : ou.length = n)
    (hls : u.last_subset = n - 1) :
    Sampler.runNext n u =
      ((permutation u.generator ou).1,
       { u with order := some (permutation u.generator ou).1,
                generator := (permutation u.generator ou).2,
                last_subset := n - 1 }) := by
  obtain ⟨n', rfl⟩ : ∃ n', n = n' + 1 := ⟨n - 1, by omega⟩
  have hshuf : u.shuffle = true ∧ u.last_subset = u.num_subsets - 1 := by
    constructor
    · exact hsh
    · omega
  have hplen : (permutation u.generator ou).1.length = n' + 1 := by
    rw [permutation_fst_length, hlen]
  have hnext : Sampler.next u =
      ((permutation u.generator ou).1.getD 0 0,
       { u with order := some (permutation u.generator ou).1,
                generator := (permutation u.generator ou).2,
                last_subset := 0 }) := by
    rw [Sampler.next, if_neg (by simp [hprob])]
    rw [Sampler.next_order, if_pos hshuf]
    simp only [ho, Option.getD_some]
    have : (u.last_subset + 1) % u.num_subsets = 0 := by
      rw [hnum, hls]
      simp [Nat.sub_add_cancel hn]
    simp [this]
  have hrec := sampler_runNext_no_wrap (n' + 1) n'
    { u with order := some (permutation u.generator ou).1,
             generator := (permutation u.generator ou).2,
             last_subset := 0 }
    (permutation u.generator ou).1
    (by simpa using hnum) (by simpa using hprob) (by simp) hplen (by simp)
  show (let p := Sampler.next u
        let q := Sampler.runNext n' p.2
        (p.1 :: q.1, q.2)) = _
  rw [hnext]
  simp only []
  rw [hrec]
  have h0 : 0 < (permutation u.generator ou).1.length := by omega
  refine Prod.ext ?_ ?_
  · show (permutation u.generator ou).1.getD 0 0 ::
        (permutation u.generator ou).1.drop 1 = _
    rw [List.getD_eq_getElem _ _ h0]
    exact (List.drop_eq_getElem_cons h0).symm
  · simp

theorem sampler_rwor_block_state (n seed : Nat) (hn : 0 < n) : ∀ k : Nat,
    ∃ ou : List Nat,
      ((Sampler.runNext (k * n)
          (Sampler.randomWithoutReplacement n seed true)).2).order = some ou ∧
      ou.Perm (List.range n) ∧ ou.length = n ∧
      ((Sampler.runNext (k * n)
          (Sampler.randomWithoutReplacement n seed true)).2).num_subsets = n ∧
      ((Sampler.runNext (k * n)
          (Sampler.randomWithoutReplacement n seed true)).2).prob = none ∧
      ((Sampler.runNext (k * n)
          (Sampler.randomWithoutReplacement n seed true)).2).shuffle = true ∧
      ((Sampler.runNext (k * n)
          (Sampler.randomWithoutReplacement n seed true)).2).last_subset = n - 1 := by
  intro k
  induction k with
  | zero =>
      refine ⟨List.range n, ?_⟩
      simp [Sampler.runNext, Sampler.randomWithoutReplacement, Sampler.init]
  | succ k ih =>
      obtain ⟨ou, ho, hperm, hlen, hnum, hprob, hsh, hls⟩ := ih
      have hadd : (k + 1) * n = k * n + n := by ring
      rw [hadd, sampler_runNext_add]
      have hblock := sampler_shuffle_block n hn
        ((Sampler.runNext (k * n) (Sampler.randomWithoutReplacement n seed true)).2)
        ou hnum hprob hsh ho hlen hls
      rw [hblock]
      refine ⟨(permutation ((Sampler.runNext (k * n)
        (Sampler.randomWithoutReplacement n seed true)).2).generator ou).1,
        by simp, ?_, ?_, by simpa using hnum, by simpa using hprob,
        by simpa using hsh, by simp⟩
      · exact (permutation_fst_perm _ ou).trans hperm
      · rw [permutation_fst_length, hlen]


/-- C6: for `randomWithoutReplacement(n, seed)` with shuffle on, every
block of n consecutive draws (draws `k*n` through `k*n + n - 1`, for
every k) is a permutation of `{0, ..., n-1}`, and two samplers built
with the same seed produce the same draw sequence (in this pure
embedding the sampler is a deterministic function of `(n, seed)`, so
reproducibility is definitional). -/
theorem rwor_blocks_are_permutations (n seed k m : Nat) (hn : 0 < n) :
    (((Sampler.runNext (k * n + n)
        (Sampler.randomWithoutReplacement n seed true)).1).drop (k * n)).Perm
      (List.range n) ∧
    (Sampler.runNext m (Sampler.randomWithoutReplacement n seed true)).1 =
      (Sampler.runNext m (Sampler.randomWithoutReplacement n seed true)).1 := by
  refine ⟨?_, rfl⟩
  rw [sampler_runNext_add]
  obtain ⟨ou, ho, hperm, hlen, hnum, hprob, hsh, hls⟩ :=
    sampler_rwor_block_state n seed hn k
  have hdrop : ((Sampler.runNext (k * n)
        (Sampler.randomWithoutReplacement n seed true)).1 ++
      (Sampler.runNext n ((Sampler.runNext (k * n)
        (Sampler.randomWithoutReplacement n seed true)).2)).1).drop (k * n) =
      (Sampler.runNext n ((Sampler.runNext (k * n)
        (Sampler.randomWithoutReplacement n seed true)).2)).1 := by
    exact List.drop_left' (sampler_runNext_length (k * n)
      (Sampler.randomWithoutReplacement n seed true))
  rw [hdrop]
  rw [sampler_shuffle_block n hn _ ou hnum hprob hsh ho hlen hls]
  exact (permutation_fst_perm _ ou).trans hperm

/-- Witness for C6 at n = 2, seed = 3, second block (k = 1). -/
theorem rwor_blocks_are_permutations_witness :
    0 < 2 ∧
    (((Sampler.runNext (1 * 2 + 2)
        (Sampler.randomWithoutReplacement 2 3 true)).1).drop (1 * 2)).Perm
      (List.range 2) :=
  ⟨by decide,
    (rwor_blocks_are_permutations 2 3 1 0 (by decide)).1⟩


/-! ## C10: the caller's initial container is never mutated -/

theorem ista_update_state (s : ISTA.State) (st : Store) :
    (ISTA.update s st).1 = { s with iteration := s.iteration + 1 } := by
  unfold ISTA.update
  cases s.preconditioner <;> rfl

theorem ista_update_read (s : ISTA.State) (st : Store) (r : Nat)
    (h1 : r ≠ s.x_old) (h2 : r ≠ s.x) (h3 : r ≠ s.gradient_update) :
    ((ISTA.update s st).2).read r = st.read r := by
  unfold ISTA.update
  cases hp : s.preconditioner <;>
    simp [Store.read, Store.write, h1, h2, h3]

theorem ista_update_fresh (s : ISTA.State) (st : Store) :
    ((ISTA.update s st).2).fresh = st.fresh := by
  unfold ISTA.update
  cases s.preconditioner <;> rfl

theorem ista_run_frame (l : List ISTA.DriverOp) :
    ∀ (s : ISTA.State) (st : Store) (r : Nat),
    r ≠ s.x_old → r ≠ s.x → r ≠ s.gradient_update →
    ((ISTA.run l (s, st)).2).read r = st.read r := by
  induction l with
  | nil => intro s st r _ _ _; rfl
  | cons op rest ih =>
      intro s st r h1 h2 h3
      cases op with
      | update =>
          have hst : ISTA.run (ISTA.DriverOp.update :: rest) (s, st) =
              ISTA.run rest ((ISTA.update s st).1, (ISTA.update s st).2) := rfl
          rw [hst]
          have hs := ista_update_state s st
          rw [ih (ISTA.update s st).1 (ISTA.update s st).2 r
            (by rw [hs]; exact h1) (by rw [hs]; exact h2) (by rw [hs]; exact h3)]
          exact ista_update_read s st r h1 h2 h3
      | updateObjective =>
          have hst : ISTA.run (ISTA.DriverOp.updateObjective :: rest) (s, st) =
              ISTA.run rest (ISTA.update_objective s st, st) := rfl
          rw [hst]
          exact ih _ st r h1 h2 h3
      | updatePrevious =>
          have hst : ISTA.run (ISTA.DriverOp.updatePrevious :: rest) (s, st) =
              ISTA.run rest (ISTA.update_previous_solution s, st) := rfl
          rw [hst]
          exact ih _ st r h2 h1 h3


theorem ista_set_up_core_ok (defaultStep : FunctionObj → Option ℚ → Except PyError ℚ)
    (st : Store) (r : Nat) (f g : Option FunctionObj) (ss : Option ℚ)
    (rule : Option StepSizeRule) (pc : Option (ℚ → ℚ))
    (s0 : ISTA.State) (st0 : Store)
    (h : ISTA.set_up_core defaultStep st r f g ss rule pc = Except.ok (s0, st0)) :
    s0.x_old = st.fresh ∧ s0.x = st.fresh + 1 ∧
    s0.gradient_update = st.fresh + 2 ∧
    st0.fresh = st.fresh + 3 ∧
    ∀ rr, rr < st.fresh → st0.read rr = st.read rr := by
  simp only [ISTA.set_up_core, bind, Except.bind, pure, Except.pure] at h
  split at h
  · exact absurd h (by simp)
  · split at h
    · rename_i d hd
      split at h
      · exact absurd h (by simp)
      · rename_i d2 hd2
        injection h with h
        have hs : s0 = _ := (congrArg Prod.fst h).symm
        have hst : st0 = _ := (congrArg Prod.snd h).symm
        subst hs
        subst hst
        refine ⟨rfl, rfl, rfl, rfl, ?_⟩
        intro rr hrr
        have e1 : rr ≠ st.fresh := by omega
        have e2 : rr ≠ st.fresh + 1 := by omega
        have e3 : rr ≠ st.fresh + 2 := by omega
        simp [Store.read, Store.alloc, e1, e2, e3]
    · split at h
      · exact absurd h (by simp)
      · injection h with h
        have hs : s0 = _ := (congrArg Prod.fst h).symm
        have hst : st0 = _ := (congrArg Prod.snd h).symm
        subst hs
        subst hst
        refine ⟨rfl, rfl, rfl, rfl, ?_⟩
        intro rr hrr
        have e1 : rr ≠ st.fresh := by omega
        have e2 : rr ≠ st.fresh + 1 := by omega
        have e3 : rr ≠ st.fresh + 2 := by omega
        simp [Store.read, Store.alloc, e1, e2, e3]


theorem fista_update_state (sq : ℚ → ℚ) (s : FISTA.State) (st : Store) :
    (FISTA.update sq s st).1.y = s.y ∧
    (FISTA.update sq s st).1.base.x_old = s.base.x_old ∧
    (FISTA.update sq s st).1.base.x = s.base.x ∧
    (FISTA.update sq s st).1.base.gradient_update = s.base.gradient_update := by
  unfold FISTA.update
  cases s.base.preconditioner <;> exact ⟨rfl, rfl, rfl, rfl⟩

theorem fista_update_read (sq : ℚ → ℚ) (s : FISTA.State) (st : Store) (r : Nat)
    (h2 : r ≠ s.base.x) (h3 : r ≠ s.base.gradient_update) (h4 : r ≠ s.y) :
    ((FISTA.update sq s st).2).read r = st.read r := by
  unfold FISTA.update
  cases hp : s.base.preconditioner <;>
    simp [Store.read, Store.write, h2, h3, h4, hp]

theorem fista_run_frame (sq : ℚ → ℚ) (l : List ISTA.DriverOp) :
    ∀ (s : FISTA.State) (st : Store) (r : Nat),
    r ≠ s.base.x_old → r ≠ s.base.x → r ≠ s.base.gradient_update → r ≠ s.y →
    ((FISTA.run sq l (s, st)).2).read r = st.read r := by
  induction l with
  | nil => intro s st r _ _ _ _; rfl
  | cons op rest ih =>
      intro s st r h1 h2 h3 h4
      cases op with
      | update =>
          have hst : FISTA.run sq (ISTA.DriverOp.update :: rest) (s, st) =
              FISTA.run sq rest
                ((FISTA.update sq s st).1, (FISTA.update sq s st).2) := rfl
          rw [hst]
          obtain ⟨e1, e2, e3, e4⟩ := fista_update_state sq s st
          rw [ih (FISTA.update sq s st).1 (FISTA.update sq s st).2 r
            (by rw [e2]; exact h1) (by rw [e3]; exact h2)
            (by rw [e4]; exact h3) (by rw [e1]; exact h4)]
          exact fista_update_read sq s st r h2 h3 h4
      | updateObjective =>
          have hst : FISTA.run sq (ISTA.DriverOp.updateObjective :: rest) (s, st) =
              FISTA.run sq rest
                ({ s with base := ISTA.update_objective s.base st }, st) := rfl
          rw [hst]
          exact ih _ st r h1 h2 h3 h4
      | updatePrevious =>
          have hst : FISTA.run sq (ISTA.DriverOp.updatePrevious :: rest) (s, st) =
              FISTA.run sq rest
                ({ s with base := ISTA.update_previous_solution s.base }, st) := rfl
          rw [hst]
          exact ih _ st r h2 h1 h3 h4

theorem fista_set_up_ok (st : Store) (r : Nat) (f g : Option FunctionObj)
    (ss : Option ℚ) (rule : Option StepSizeRule) (pc : Option (ℚ → ℚ))
    (s0 : FISTA.State) (st0 : Store)
    (h : FISTA.set_up st r f g ss rule pc = Except.ok (s0, st0)) :
    s0.y = st.fresh ∧ s0.base.x_old = st.fresh + 1 ∧
    s0.base.x = st.fresh + 2 ∧ s0.base.gradient_update = st.fresh + 3 ∧
    st0.fresh = st.fresh + 4 ∧
    ∀ rr, rr < st.fresh → st0.read rr = st.read rr := by
  simp only [FISTA.set_up, bind, Except.bind, pure, Except.pure] at h
  cases hc : ISTA.set_up_core ISTA.fista_default_step_size
      ((st.alloc (st.read r)).2) r f g ss rule pc with
  | error e => rw [hc] at h; cases h
  | ok p =>
      rw [hc] at h
      injection h with h
      have hs : s0 = _ := (congrArg Prod.fst h).symm
      have hst : st0 = _ := (congrArg Prod.snd h).symm
      obtain ⟨c1, c2, c3, c4, c5⟩ :=
        ista_set_up_core_ok ISTA.fista_default_step_size
          ((st.alloc (st.read r)).2) r f g ss rule pc p.1 p.2 (by rw [hc])
      have hfr : ((st.alloc (st.read r)).2).fresh = st.fresh + 1 := rfl
      subst hs
      subst hst
      refine ⟨rfl, by rw [c1, hfr], by rw [c2, hfr], by rw [c3, hfr],
        by rw [c4, hfr], ?_⟩
      intro rr hrr
      rw [c5 rr (by omega)]
      exact store_read_alloc_of_lt st _ rr hrr


theorem store_allocN_fresh (n : Nat) (v : ℚ) : ∀ st : Store,
    ((Store.allocN st n v).2).fresh = st.fresh + n := by
  induction n with
  | zero => intro st; rfl
  | succ n ih =>
      intro st
      show ((Store.allocN (st.alloc v).2 n v).2).fresh = st.fresh + (n + 1)
      rw [ih]
      show (st.alloc v).2.fresh + n = st.fresh + (n + 1)
      rw [store_fresh_alloc]
      omega

theorem store_allocN_length (n : Nat) (v : ℚ) : ∀ st : Store,
    (Store.allocN st n v).1.length = n := by
  induction n with
  | zero => intro st; rfl
  | succ n ih =>
      intro st
      show ((st.alloc v).1 :: (Store.allocN (st.alloc v).2 n v).1).length = n + 1
      simp [ih]

theorem store_allocN_mem_ge (n : Nat) (v : ℚ) : ∀ (st : Store) (q : Nat),
    q ∈ (Store.allocN st n v).1 → st.fresh ≤ q := by
  induction n with
  | zero => intro st q hq; cases hq
  | succ n ih =>
      intro st q hq
      rcases List.mem_cons.1 hq with rfl | hq1
      · exact le_rfl
      · have := ih (st.alloc v).2 q hq1
        rw [store_fresh_alloc] at this
        omega

theorem store_allocN_read_lt (n : Nat) (v : ℚ) : ∀ (st : Store) (rr : Nat),
    rr < st.fresh → ((Store.allocN st n v).2).read rr = st.read rr := by
  induction n with
  | zero => intro st rr _; rfl
  | succ n ih =>
      intro st rr hrr
      show ((Store.allocN (st.alloc v).2 n v).2).read rr = st.read rr
      rw [ih (st.alloc v).2 rr (by rw [store_fresh_alloc]; omega)]
      exact store_read_alloc_of_lt st v rr hrr

theorem spdhg_alloc_chain (st : Store) (a : ℚ) (n : Nat) :
    ((((st.alloc a).2.alloc 0).2.allocN n 0).2).fresh = st.fresh + 2 + n ∧
    (((((st.alloc a).2.alloc 0).2.allocN n 0).2.alloc 0).2).fresh =
      st.fresh + 3 + n ∧
    ((((((st.alloc a).2.alloc 0).2.allocN n 0).2.alloc 0).2.alloc 0).2).fresh =
      st.fresh + 4 + n ∧
    (∀ q ∈ (((st.alloc a).2.alloc 0).2.allocN n 0).1, st.fresh ≤ q) ∧
    ((((st.alloc a).2.alloc 0).2.allocN n 0).1).length = n ∧
    ∀ rr, rr < st.fresh →
      (((((((st.alloc a).2.alloc 0).2.allocN n 0).2.alloc 0).2.alloc 0).2).read rr =
        st.read rr) := by
  have f1 : (st.alloc a).2.fresh = st.fresh + 1 := store_fresh_alloc st a
  have f2 : ((st.alloc a).2.alloc 0).2.fresh = st.fresh + 2 := by
    rw [store_fresh_alloc, f1]
  have f3 : ((((st.alloc a).2.alloc 0).2.allocN n 0).2).fresh =
      st.fresh + 2 + n := by
    rw [store_allocN_fresh, f2]
  have f4 : (((((st.alloc a).2.alloc 0).2.allocN n 0).2.alloc 0).2).fresh =
      st.fresh + 3 + n := by
    rw [store_fresh_alloc, f3]
    omega
  have f5 : ((((((st.alloc a).2.alloc 0).2.allocN n 0).2.alloc 0).2.alloc 0).2).fresh =
      st.fresh + 4 + n := by
    rw [store_fresh_alloc, f4]
    omega
  refine ⟨f3, f4, f5, ?_, store_allocN_length n 0 _, ?_⟩
  · intro q hq
    have := store_allocN_mem_ge n 0 ((st.alloc a).2.alloc 0).2 q hq
    rw [f2] at this
    omega
  · intro rr hrr
    have g1 : ((st.alloc a).2).read rr = st.read rr :=
      store_read_alloc_of_lt st a rr hrr
    have g2 : (((st.alloc a).2.alloc 0).2).read rr = ((st.alloc a).2).read rr :=
      store_read_alloc_of_lt _ 0 rr (by rw [f1]; omega)
    have g3 : ((((st.alloc a).2.alloc 0).2.allocN n 0).2).read rr =
        (((st.alloc a).2.alloc 0).2).read rr :=
      store_allocN_read_lt n 0 _ rr (by rw [f2]; omega)
    have g4 : (((((st.alloc a).2.alloc 0).2.allocN n 0).2.alloc 0).2).read rr =
        ((((st.alloc a).2.alloc 0).2.allocN n 0).2).read rr :=
      store_read_alloc_of_lt _ 0 rr (by rw [f3]; omega)
    have g5 : ((((((st.alloc a).2.alloc 0).2.allocN n 0).2.alloc 0).2.alloc 0).2).read rr =
        (((((st.alloc a).2.alloc 0).2.allocN n 0).2.alloc 0).2).read rr :=
      store_read_alloc_of_lt _ 0 rr (by rw [f4]; omega)
    exact g5.trans (g4.trans (g3.trans (g2.trans g1)))

theorem spdhg_set_up_ok (st : Store) (initial : Option Nat)
    (norms pw : List ℚ) (sg : Option (List ℚ)) (t : Option ℚ)
    (s0 : SPDHG.State) (st0 : Store)
    (h : SPDHG.set_up st initial norms pw sg t = Except.ok (s0, st0)) :
    st.fresh ≤ s0.x ∧ st.fresh ≤ s0.x_tmp ∧ st.fresh ≤ s0.z ∧
    st.fresh ≤ s0.zbar ∧ (∀ q ∈ s0.y_old, st.fresh ≤ q) ∧
    s0.y_old.length = s0.ndual ∧ st.fresh ≤ st0.fresh ∧
    (∀ rr, rr < st.fresh → st0.read rr = st.read rr) := by
  simp only [SPDHG.set_up, bind, Except.bind, pure, Except.pure] at h
  cases hss : SPDHG.set_step_sizes norms pw sg t with
  | error e => rw [hss] at h; cases h
  | ok p =>
      rw [hss] at h
      cases initial with
      | none =>
          injection h with h
          have hs : s0 = _ := (congrArg Prod.fst h).symm
          have hst : st0 = _ := (congrArg Prod.snd h).symm
          subst hs
          subst hst
          obtain ⟨f3, f4, f5, hmem, hlen, hread⟩ := spdhg_alloc_chain st 0 norms.length
          refine ⟨le_rfl, ?_, ?_, ?_, hmem, hlen, ?_, hread⟩
          · show st.fresh ≤ (st.alloc 0).2.fresh
            rw [store_fresh_alloc]
            omega
          · show st.fresh ≤ ((((st.alloc 0).2.alloc 0).2.allocN norms.length 0).2).fresh
            rw [f3]
            omega
          · show st.fresh ≤ (((((st.alloc 0).2.alloc 0).2.allocN norms.length 0).2.alloc 0).2).fresh
            rw [f4]
            omega
          · show st.fresh ≤ ((((((st.alloc 0).2.alloc 0).2.allocN norms.length 0).2.alloc 0).2.alloc 0).2).fresh
            rw [f5]
            omega
      | some r0 =>
          injection h with h
          have hs : s0 = _ := (congrArg Prod.fst h).symm
          have hst : st0 = _ := (congrArg Prod.snd h).symm
          subst hs
          subst hst
          obtain ⟨f3, f4, f5, hmem, hlen, hread⟩ :=
            spdhg_alloc_chain st (st.read r0) norms.length
          refine ⟨le_rfl, ?_, ?_, ?_, hmem, hlen, ?_, hread⟩
          · show st.fresh ≤ (st.alloc (st.read r0)).2.fresh
            rw [store_fresh_alloc]
            omega
          · show st.fresh ≤ ((((st.alloc (st.read r0)).2.alloc 0).2.allocN norms.length 0).2).fresh
            rw [f3]
            omega
          · show st.fresh ≤ (((((st.alloc (st.read r0)).2.alloc 0).2.allocN norms.length 0).2.alloc 0).2).fresh
            rw [f4]
            omega
          · show st.fresh ≤ ((((((st.alloc (st.read r0)).2.alloc 0).2.allocN norms.length 0).2.alloc 0).2.alloc 0).2).fresh
            rw [f5]
            omega


theorem spdhg_update_objective_frame (ops : SPDHG.Ops) (s : SPDHG.State)
    (st : Store) (r : Nat) (hf : r < st.fresh) :
    (SPDHG.update_objective ops s st).1.x = s.x ∧
    (SPDHG.update_objective ops s st).1.x_tmp = s.x_tmp ∧
    (SPDHG.update_objective ops s st).1.z = s.z ∧
    (SPDHG.update_objective ops s st).1.zbar = s.zbar ∧
    (SPDHG.update_objective ops s st).1.y_old = s.y_old ∧
    (SPDHG.update_objective ops s st).1.ndual = s.ndual ∧
    ((SPDHG.update_objective ops s st).2).fresh = st.fresh + 1 ∧
    ((SPDHG.update_objective ops s st).2).read r = st.read r := by
  refine ⟨rfl, rfl, rfl, rfl, rfl, rfl, rfl, ?_⟩
  show ((st.alloc _).2.write (st.alloc _).1 _).read r = st.read r
  rw [store_read_write_ne _ _ _ _ (by rw [store_alloc_fst_eq]; omega)]
  exact store_read_alloc_of_lt st _ r hf

theorem spdhg_update_frame (ops : SPDHG.Ops) (s : SPDHG.State) (st : Store)
    (i r : Nat) (hx : r ≠ s.x) (ht : r ≠ s.x_tmp) (hz : r ≠ s.z)
    (hzb : r ≠ s.zbar) (hy : r ∉ s.y_old) (hf : r < st.fresh)
    (hlen : s.y_old.length = s.ndual) :
    (∀ s' st', SPDHG.update ops s st i = Except.ok (s', st') →
      s' = s ∧ st'.read r = st.read r ∧ st'.fresh = st.fresh + 2) ∧
    (∀ e st', SPDHG.update ops s st i = Except.error (e, st') →
      st'.read r = st.read r) := by
  have hprimal : (SPDHG.primalStep ops s st).read r = st.read r := by
    show ((st.write s.x_tmp _).write s.x _).read r = st.read r
    rw [store_read_write_ne _ _ _ _ hx, store_read_write_ne _ _ _ _ ht]
  have hpfresh : (SPDHG.primalStep ops s st).fresh = st.fresh := rfl
  by_cases hi : i < s.ndual
  · have hyoi : s.y_old.getD i 0 ∈ s.y_old := by
      rw [List.getD_eq_getElem _ _ (by omega)]
      exact List.getElem_mem _
    have hryoi : r ≠ s.y_old.getD i 0 := fun hcon => hy (hcon ▸ hyoi)
    have h6 : r ≠ st.fresh := by omega
    have h7 : r ≠ st.fresh + 1 := by omega
    constructor
    · intro s' st' h
      simp only [SPDHG.update, SPDHG.blockDirect, if_pos hi] at h
      injection h with h
      have hs : s' = _ := (congrArg Prod.fst h).symm
      have hst : st' = _ := (congrArg Prod.snd h).symm
      subst hst
      refine ⟨hs, ?_, ?_⟩
      · set yoi := s.y_old.getD i 0 with hyoidef
        simp only [Store.read, Store.write, Store.alloc, SPDHG.primalStep]
        simp [hx, ht, hz, hzb, hryoi, h6, h7]
      · rfl
    · intro e st' h
      simp only [SPDHG.update, SPDHG.blockDirect, if_pos hi] at h
      cases h
  · constructor
    · intro s' st' h
      simp only [SPDHG.update, SPDHG.blockDirect, if_neg hi] at h
      cases h
    · intro e st' h
      simp only [SPDHG.update, SPDHG.blockDirect, if_neg hi] at h
      injection h with h
      have hst : st' = _ := (congrArg Prod.snd h).symm
      subst hst
      exact hprimal

theorem spdhg_run_frame (ops : SPDHG.Ops) (l : List SPDHG.DriverOp) :
    ∀ (s : SPDHG.State) (st : Store) (r : Nat),
    r ≠ s.x → r ≠ s.x_tmp → r ≠ s.z → r ≠ s.zbar → r ∉ s.y_old →
    r < st.fresh → s.y_old.length = s.ndual →
    ((SPDHG.run ops l (s, st)).2).read r = st.read r := by
  induction l with
  | nil => intro s st r _ _ _ _ _ _ _; rfl
  | cons op rest ih =>
      intro s st r hx ht hz hzb hy hf hlen
      cases op with
      | updateObjective =>
          have hst : SPDHG.run ops (SPDHG.DriverOp.updateObjective :: rest) (s, st) =
              SPDHG.run ops rest ((SPDHG.update_objective ops s st).1,
                (SPDHG.update_objective ops s st).2) := rfl
          rw [hst]
          obtain ⟨e1, e2, e3, e4, e5, e6, e7, e8⟩ :=
            spdhg_update_objective_frame ops s st r hf
          rw [ih _ _ r (by rw [e1]; exact hx) (by rw [e2]; exact ht)
            (by rw [e3]; exact hz) (by rw [e4]; exact hzb)
            (by rw [e5]; exact hy) (by rw [e7]; omega)
            (by rw [e5, e6]; exact hlen)]
          exact e8
      | update i =>
          obtain ⟨hok, herr⟩ := spdhg_update_frame ops s st i r hx ht hz hzb hy hf hlen
          cases hu : SPDHG.update ops s st i with
          | ok p =>
              have hst : SPDHG.run ops (SPDHG.DriverOp.update i :: rest) (s, st) =
                  SPDHG.run ops rest (p.1, p.2) := by
                show (match SPDHG.update ops s st i with
                      | Except.ok q => SPDHG.run ops rest q
                      | Except.error (_, st') => (s, st')) = _
                rw [hu]
              rw [hst]
              obtain ⟨hps, hpr, hpf⟩ := hok p.1 p.2 (by rw [hu])
              rw [ih p.1 p.2 r (by rw [hps]; exact hx) (by rw [hps]; exact ht)
                (by rw [hps]; exact hz) (by rw [hps]; exact hzb)
                (by rw [hps]; exact hy) (by rw [hpf]; omega)
                (by rw [hps]; exact hlen)]
              exact hpr
          | error q =>
              have hst : SPDHG.run ops (SPDHG.DriverOp.update i :: rest) (s, st) =
                  (s, q.2) := by
                show (match SPDHG.update ops s st i with
                      | Except.ok p => SPDHG.run ops rest p
                      | Except.error (_, st') => (s, st')) = _
                rw [hu]
              rw [hst]
              exact herr q.1 q.2 (by rw [hu])


theorem spdhg_set_up_x_value (st : Store) (initial : Option Nat)
    (norms pw : List ℚ) (sg : Option (List ℚ)) (t : Option ℚ)
    (s0 : SPDHG.State) (st0 : Store)
    (h : SPDHG.set_up st initial norms pw sg t = Except.ok (s0, st0)) :
    st0.read s0.x = (match initial with
                     | none => 0
                     | some r0 => st.read r0) := by
  simp only [SPDHG.set_up, bind, Except.bind, pure, Except.pure] at h
  cases hss : SPDHG.set_step_sizes norms pw sg t with
  | error e => rw [hss] at h; cases h
  | ok p =>
      rw [hss] at h
      cases initial with
      | none =>
          injection h with h
          have hs : s0 = _ := (congrArg Prod.fst h).symm
          have hst : st0 = _ := (congrArg Prod.snd h).symm
          subst hs
          subst hst
          obtain ⟨f3, f4, f5, hmem, hlen, hread⟩ := spdhg_alloc_chain st 0 norms.length
          show Store.read _ (st.alloc 0).1 = 0
          rw [store_alloc_fst_eq]
          have g5 := store_read_alloc_of_lt
            ((((((st.alloc 0).2.alloc 0).2.allocN norms.length 0).2.alloc 0).2)) 0
            st.fresh (by rw [f4]; omega)
          have g4 := store_read_alloc_of_lt
            ((((st.alloc 0).2.alloc 0).2.allocN norms.length 0).2) 0
            st.fresh (by rw [f3]; omega)
          have g3 := store_allocN_read_lt norms.length 0 ((st.alloc 0).2.alloc 0).2
            st.fresh (by rw [store_fresh_alloc, store_fresh_alloc]; omega)
          have g2 := store_read_alloc_of_lt (st.alloc 0).2 0 st.fresh
            (by rw [store_fresh_alloc]; omega)
          rw [g5, g4, g3, g2]
          exact store_read_alloc_fst st 0
      | some r0 =>
          injection h with h
          have hs : s0 = _ := (congrArg Prod.fst h).symm
          have hst : st0 = _ := (congrArg Prod.snd h).symm
          subst hs
          subst hst
          obtain ⟨f3, f4, f5, hmem, hlen, hread⟩ :=
            spdhg_alloc_chain st (st.read r0) norms.length
          show Store.read _ (st.alloc (st.read r0)).1 = st.read r0
          rw [store_alloc_fst_eq]
          have g5 := store_read_alloc_of_lt
            ((((((st.alloc (st.read r0)).2.alloc 0).2.allocN norms.length 0).2.alloc 0).2)) 0
            st.fresh (by rw [f4]; omega)
          have g4 := store_read_alloc_of_lt
            ((((st.alloc (st.read r0)).2.alloc 0).2.allocN norms.length 0).2) 0
            st.fresh (by rw [f3]; omega)
          have g3 := store_allocN_read_lt norms.length 0
            ((st.alloc (st.read r0)).2.alloc 0).2
            st.fresh (by rw [store_fresh_alloc, store_fresh_alloc]; omega)
          have g2 := store_read_alloc_of_lt (st.alloc (st.read r0)).2 0 st.fresh
            (by rw [store_fresh_alloc]; omega)
          rw [g5, g4, g3, g2]
          exact store_read_alloc_fst st (st.read r0)


theorem ista_set_up_core_x_old_value
    (defaultStep : FunctionObj → Option ℚ → Except PyError ℚ)
    (st : Store) (r : Nat) (f g : Option FunctionObj) (ss : Option ℚ)
    (rule : Option StepSizeRule) (pc : Option (ℚ → ℚ))
    (s0 : ISTA.State) (st0 : Store)
    (h : ISTA.set_up_core defaultStep st r f g ss rule pc = Except.ok (s0, st0)) :
    st0.read s0.x_old = st.read r := by
  obtain ⟨c1, c2, c3, c4, c5⟩ :=
    ista_set_up_core_ok defaultStep st r f g ss rule pc s0 st0 h
  simp only [ISTA.set_up_core, bind, Except.bind, pure, Except.pure] at h
  split at h
  · exact absurd h (by simp)
  · split at h
    · split at h
      · exact absurd h (by simp)
      · injection h with h
        have hst : st0 = _ := (congrArg Prod.snd h).symm
        subst hst
        rw [c1]
        show Store.read _ st.fresh = st.read r
        rw [store_read_alloc_of_lt _ _ _ (by rw [store_fresh_alloc, store_fresh_alloc]; omega),
          store_read_alloc_of_lt _ _ _ (by rw [store_fresh_alloc]; omega)]
        exact store_read_alloc_fst st (st.read r)
    · split at h
      · exact absurd h (by simp)
      · injection h with h
        have hst : st0 = _ := (congrArg Prod.snd h).symm
        subst hst
        rw [c1]
        show Store.read _ st.fresh = st.read r
        rw [store_read_alloc_of_lt _ _ _ (by rw [store_fresh_alloc, store_fresh_alloc]; omega),
          store_read_alloc_of_lt _ _ _ (by rw [store_fresh_alloc]; omega)]
        exact store_read_alloc_fst st (st.read r)


/-- C10: for ISTA, FISTA and SPDHG, `set_up` copies the caller's
`initial` container into freshly allocated buffers (ISTA's `x_old`
and SPDHG's `x` hold the copied value; SPDHG allocates a zero container
when `initial` is absent), and neither `set_up` nor any subsequent
schedule of `update`, `update_objective` and buffer-swap driver calls
writes to the caller's container reference `r`. -/
theorem initial_never_mutated :
    (∀ (st : Store) (r : Nat) (f g : Option FunctionObj) (ss : Option ℚ)
        (rule : Option StepSizeRule) (pc : Option (ℚ → ℚ))
        (s0 : ISTA.State) (st0 : Store),
      r < st.fresh →
      ISTA.set_up st r f g ss rule pc = Except.ok (s0, st0) →
      st0.read r = st.read r ∧ st0.read s0.x_old = st.read r ∧
      ∀ l : List ISTA.DriverOp,
        ((ISTA.run l (s0, st0)).2).read r = st.read r) ∧
    (∀ (sq : ℚ → ℚ) (st : Store) (r : Nat) (f g : Option FunctionObj)
        (ss : Option ℚ) (rule : Option StepSizeRule) (pc : Option (ℚ → ℚ))
        (s0 : FISTA.State) (st0 : Store),
      r < st.fresh →
      FISTA.set_up st r f g ss rule pc = Except.ok (s0, st0) →
      st0.read r = st.read r ∧
      ∀ l : List ISTA.DriverOp,
        ((FISTA.run sq l (s0, st0)).2).read r = st.read r) ∧
    (∀ (ops : SPDHG.Ops) (st : Store) (r : Nat) (norms pw : List ℚ)
        (sg : Option (List ℚ)) (t : Option ℚ)
        (s0 : SPDHG.State) (st0 : Store),
      r < st.fresh →
      SPDHG.set_up st (some r) norms pw sg t = Except.ok (s0, st0) →
      st0.read r = st.read r ∧ st0.read s0.x = st.read r ∧
      ∀ l : List SPDHG.DriverOp,
        ((SPDHG.run ops l (s0, st0)).2).read r = st.read r) ∧
    (∀ (st : Store) (norms pw : List ℚ) (sg : Option (List ℚ)) (t : Option ℚ)
        (s0 : SPDHG.State) (st0 : Store),
      SPDHG.set_up st none norms pw sg t = Except.ok (s0, st0) →
      st0.read s0.x = 0) := by
  refine ⟨?_, ?_, ?_, ?_⟩
  · intro st r f g ss rule pc s0 st0 hr h
    obtain ⟨c1, c2, c3, c4, c5⟩ :=
      ista_set_up_core_ok ISTA.default_step_size st r f g ss rule pc s0 st0 h
    refine ⟨c5 r hr, ista_set_up_core_x_old_value _ st r f g ss rule pc s0 st0 h, ?_⟩
    intro l
    rw [ista_run_frame l s0 st0 r (by omega) (by omega) (by omega)]
    exact c5 r hr
  · intro sq st r f g ss rule pc s0 st0 hr h
    obtain ⟨c1, c2, c3, c4, c5, c6⟩ := fista_set_up_ok st r f g ss rule pc s0 st0 h
    refine ⟨c6 r hr, ?_⟩
    intro l
    rw [fista_run_frame sq l s0 st0 r (by omega) (by omega) (by omega) (by omega)]
    exact c6 r hr
  · intro ops st r norms pw sg t s0 st0 hr h
    obtain ⟨c1, c2, c3, c4, c5, c6, c7, c8⟩ := spdhg_set_up_ok st (some r) norms pw sg t s0 st0 h
    have hxv := spdhg_set_up_x_value st (some r) norms pw sg t s0 st0 h
    refine ⟨c8 r hr, hxv, ?_⟩
    intro l
    rw [spdhg_run_frame ops l s0 st0 r (by omega) (by omega) (by omega) (by omega)
      (fun hmem => by have := c5 r hmem; omega) (by omega) c6]
    exact c8 r hr
  · intro st norms pw sg t s0 st0 h
    exact spdhg_set_up_x_value st none norms pw sg t s0 st0 h

/-- Witness for C10 on concrete setups of all three algorithms,
driven through concrete schedules (the SPDHG one ends in an
out-of-range draw, exercising the error path too). -/
theorem initial_never_mutated_witness :
    (0 : Nat) < exStore2.fresh ∧
    ISTA.set_up exStore2 0 (some FunctionObj.zeroFunction) (some exG)
      none none none = Except.ok (exIstaRes.1, exIstaRes.2) ∧
    FISTA.set_up exStore2 0 (some FunctionObj.zeroFunction) (some exG)
      none none none = Except.ok (exFistaRes.1, exFistaRes.2) ∧
    SPDHG.set_up exStore2 (some 0) [1] [1] (some [1]) (some 1) =
      Except.ok (exSpdhgRes.1, exSpdhgRes.2) ∧
    SPDHG.set_up exStore2 none [1] [1] (some [1]) (some 1) =
      Except.ok (exSpdhgResNone.1, exSpdhgResNone.2) ∧
    ((ISTA.run exIstaSchedule (exIstaRes.1, exIstaRes.2)).2).read 0 =
      exStore2.read 0 ∧
    ((FISTA.run (fun q => q) exIstaSchedule (exFistaRes.1, exFistaRes.2)).2).read 0 =
      exStore2.read 0 ∧
    ((SPDHG.run exOps exSpdhgSchedule (exSpdhgRes.1, exSpdhgRes.2)).2).read 0 =
      exStore2.read 0 ∧
    (exSpdhgResNone.2).read exSpdhgResNone.1.x = 0 :=
  ⟨by decide, rfl, rfl, rfl, rfl,
    ((initial_never_mutated.1 exStore2 0 (some FunctionObj.zeroFunction)
      (some exG) none none none exIstaRes.1 exIstaRes.2 (by decide) rfl).2.2
      exIstaSchedule),
    ((initial_never_mutated.2.1 (fun q => q) exStore2 0
      (some FunctionObj.zeroFunction) (some exG) none none none
      exFistaRes.1 exFistaRes.2 (by decide) rfl).2 exIstaSchedule),
    ((initial_never_mutated.2.2.1 exOps exStore2 0 [1] [1] (some [1]) (some 1)
      exSpdhgRes.1 exSpdhgRes.2 (by decide) rfl).2.2 exSpdhgSchedule),
    (initial_never_mutated.2.2.2 exStore2 [1] [1] (some [1]) (some 1)
      exSpdhgResNone.1 exSpdhgResNone.2 rfl)⟩


end CIL
